import Mathlib

/-!
Verification development for the ngorm `scope` package (schema resolution,
relationship inference) and the condition compiler's parameter handling.

The Go source (`scope/scope.go`) is shallowly embedded: Go struct types are
values of `GoType`, the engine's mutable schema cache is threaded explicitly,
and fallible functions return `Except String`.  Go's pointer sharing between
`model.Struct.StructFields` and `model.Struct.PrimaryFields` is represented by
keeping the primary-key fields as a list of indices into `structFields`, so a
mutation of a field is visible through both views, exactly as an in-place
pointer mutation is.  Recursive schema resolution is bounded by an explicit
fuel parameter; every function consumes one unit of fuel per step so that the
definitions are structurally recursive and computable by the kernel.
-/

namespace Ngorm

/-- Modelled from the spec: `util.ToDBName` is not among the source files; the
spec (§4.1) describes it as the "snake-case transform" used for column names
and default table names ("else snake-case of the field name"), so this is a
standard initialism-aware snake-case conversion (`UserID` ↦ `user_id`,
`ID` ↦ `id`). -/
def toDBNameAux : Option Char → List Char → List Char
  | _, [] => []
  | prev, c :: rest =>
    if c.isUpper then
      let boundary :=
        match prev with
        | none => false
        | some p =>
          p.isLower || p.isDigit || (p.isUpper && (match rest with
            | r :: _ => r.isLower
            | [] => false))
      (if boundary then ['_', c.toLower] else [c.toLower]) ++ toDBNameAux (some c) rest
    else c :: toDBNameAux (some c) rest

/-- Modelled from the spec: snake-case conversion of a Go name (see
`toDBNameAux`). -/
def toDBName (s : String) : String := String.mk (toDBNameAux none s.toList)

/-- Go's `strings.Split` for a single-character separator (the source only
splits on `"."` and `","`), implemented on the character list so the kernel
can evaluate it.  Matches Go: splitting the empty string yields `[""]`, and
adjacent separators yield empty segments. -/
def goSplitAux : List Char → Char → List Char → List String
  | [], _, acc => [String.mk acc.reverse]
  | c :: rest, sep, acc =>
    if c = sep then String.mk acc.reverse :: goSplitAux rest sep []
    else goSplitAux rest sep (c :: acc)

def goSplit (s : String) (sep : Char) : List String := goSplitAux s.toList sep []

def listIsPre : List Char → List Char → Bool
  | [], _ => true
  | _ :: _, [] => false
  | p :: ps, c :: cs => p == c && listIsPre ps cs

/-- Go's `strings.HasPrefix(s, pre)`, on character lists. -/
def goHasPre (s pre : String) : Bool := listIsPre pre.toList s.toList

/-- Go's `strings.HasSuffix(s, suf)`, on character lists. -/
def goHasSuf (s suf : String) : Bool := listIsPre suf.toList.reverse s.toList.reverse

/-- Modelled from the spec: the table name is "pluralized unless disabled"
(§3); the inflection library is not among the source files, so plural
formation is the plain English default. -/
def pluralize (s : String) : String :=
  if goHasSuf s "s" then s else s ++ "s"

/-- Lookup in a parsed tag-settings list (`model.ParseTagSetting` is applied
before the embedding: annotations arrive as an association list with the
upper-cased keys the source reads). -/
def tagGet : List (String × String) → String → Option String
  | [], _ => none
  | (k, v) :: rest, key => if k = key then some v else tagGet rest key

/-- Go's `field.TagSettings[key]` read, which yields `""` for a missing key. -/
def tagVal (tags : List (String × String)) (key : String) : String :=
  (tagGet tags key).getD ""

/-- Go's `_, ok := field.TagSettings[key]` presence test. -/
def tagHas (tags : List (String × String)) (key : String) : Bool :=
  (tagGet tags key).isSome

/-- The source's `if fk := field.TagSettings[key]; fk != "" { strings.Split(fk, ",") }`
idiom: the comma-separated override list, empty when the tag is absent or empty. -/
def tagKeys (tags : List (String × String)) (key : String) : List String :=
  let v := tagVal tags key
  if v = "" then [] else goSplit v ','

/-- Go map store: replace the binding if the key is present, else append. -/
def tagSet : List (String × String) → String → String → List (String × String)
  | [], k, v => [(k, v)]
  | (k', v') :: rest, k, v =>
    if k' = k then (k, v) :: rest else (k', v') :: tagSet rest k v

mutual
/-- A Go type as far as the scope package inspects one: a struct carries its
name, whether (a pointer to) it implements `engine.Tabler` / `engine.DBTabler`
(the resulting table name when it does), whether it implements `sql.Scanner`,
and its declared fields. -/
inductive GoType where
  | structT (name : String) (tabler dbTabler : Option String) (scanner : Bool)
      (fields : List GoField)
  | sliceT (elem : GoType)
  | ptrT (elem : GoType)
  | timeT
  | basicT (name : String) (scanner : Bool)

/-- A declared field of a Go struct: name, anonymity, exportedness, the parsed
tag settings, and the field's type. -/
inductive GoField where
  | mk (name : String) (anonymous exported : Bool) (tags : List (String × String))
      (typ : GoType)
end

def GoField.name : GoField → String
  | .mk n _ _ _ _ => n

def GoField.anonymous : GoField → Bool
  | .mk _ a _ _ _ => a

def GoField.exported : GoField → Bool
  | .mk _ _ e _ _ => e

def GoField.tags : GoField → List (String × String)
  | .mk _ _ _ t _ => t

def GoField.typ : GoField → GoType
  | .mk _ _ _ _ t => t

mutual
def tyBeq : GoType → GoType → Bool
  | .structT n1 t1 d1 s1 f1, .structT n2 t2 d2 s2 f2 =>
      n1 == n2 && t1 == t2 && d1 == d2 && s1 == s2 && fieldsBeq f1 f2
  | .sliceT a, .sliceT b => tyBeq a b
  | .ptrT a, .ptrT b => tyBeq a b
  | .timeT, .timeT => true
  | .basicT n1 s1, .basicT n2 s2 => n1 == n2 && s1 == s2
  | _, _ => false

def fieldBeq : GoField → GoField → Bool
  | .mk n1 a1 e1 t1 ty1, .mk n2 a2 e2 t2 ty2 =>
      n1 == n2 && a1 == a2 && e1 == e2 && t1 == t2 && tyBeq ty1 ty2

def fieldsBeq : List GoField → List GoField → Bool
  | [], [] => true
  | a :: as, b :: bs => fieldBeq a b && fieldsBeq as bs
  | _, _ => false
end

mutual
theorem tyBeq_sound : ∀ a b, tyBeq a b = true → a = b
  | .structT n1 t1 d1 s1 f1, .structT n2 t2 d2 s2 f2, h => by
      simp only [tyBeq, Bool.and_eq_true, beq_iff_eq] at h
      obtain ⟨⟨⟨⟨h1, h2⟩, h3⟩, h4⟩, h5⟩ := h
      subst h1; subst h2; subst h3; subst h4
      exact congrArg _ (fieldsBeq_sound f1 f2 h5)
  | .sliceT a, .sliceT b, h => by
      simp only [tyBeq] at h
      exact congrArg _ (tyBeq_sound a b h)
  | .ptrT a, .ptrT b, h => by
      simp only [tyBeq] at h
      exact congrArg _ (tyBeq_sound a b h)
  | .timeT, .timeT, _ => rfl
  | .basicT n1 s1, .basicT n2 s2, h => by
      simp only [tyBeq, Bool.and_eq_true, beq_iff_eq] at h
      obtain ⟨h1, h2⟩ := h
      subst h1; subst h2; rfl
  | .structT _ _ _ _ _, .sliceT _, h => by simp [tyBeq] at h
  | .structT _ _ _ _ _, .ptrT _, h => by simp [tyBeq] at h
  | .structT _ _ _ _ _, .timeT, h => by simp [tyBeq] at h
  | .structT _ _ _ _ _, .basicT _ _, h => by simp [tyBeq] at h
  | .sliceT _, .structT _ _ _ _ _, h => by simp [tyBeq] at h
  | .sliceT _, .ptrT _, h => by simp [tyBeq] at h
  | .sliceT _, .timeT, h => by simp [tyBeq] at h
  | .sliceT _, .basicT _ _, h => by simp [tyBeq] at h
  | .ptrT _, .structT _ _ _ _ _, h => by simp [tyBeq] at h
  | .ptrT _, .sliceT _, h => by simp [tyBeq] at h
  | .ptrT _, .timeT, h => by simp [tyBeq] at h
  | .ptrT _, .basicT _ _, h => by simp [tyBeq] at h
  | .timeT, .structT _ _ _ _ _, h => by simp [tyBeq] at h
  | .timeT, .sliceT _, h => by simp [tyBeq] at h
  | .timeT, .ptrT _, h => by simp [tyBeq] at h
  | .timeT, .basicT _ _, h => by simp [tyBeq] at h
  | .basicT _ _, .structT _ _ _ _ _, h => by simp [tyBeq] at h
  | .basicT _ _, .sliceT _, h => by simp [tyBeq] at h
  | .basicT _ _, .ptrT _, h => by simp [tyBeq] at h
  | .basicT _ _, .timeT, h => by simp [tyBeq] at h

theorem fieldBeq_sound : ∀ a b, fieldBeq a b = true → a = b
  | .mk n1 a1 e1 t1 ty1, .mk n2 a2 e2 t2 ty2, h => by
      simp only [fieldBeq, Bool.and_eq_true, beq_iff_eq] at h
      obtain ⟨⟨⟨⟨h1, h2⟩, h3⟩, h4⟩, h5⟩ := h
      subst h1; subst h2; subst h3; subst h4
      exact congrArg _ (tyBeq_sound ty1 ty2 h5)

theorem fieldsBeq_sound : ∀ a b, fieldsBeq a b = true → a = b
  | [], [], _ => rfl
  | a :: as, b :: bs, h => by
      simp only [fieldsBeq, Bool.and_eq_true] at h
      obtain ⟨h1, h2⟩ := h
      rw [fieldBeq_sound a b h1, fieldsBeq_sound as bs h2]
  | [], _ :: _, h => by simp [fieldsBeq] at h
  | _ :: _, [], h => by simp [fieldsBeq] at h
end

mutual
theorem tyBeq_refl : ∀ a, tyBeq a a = true
  | .structT _ _ _ _ f => by simp [tyBeq, fieldsBeq_refl f]
  | .sliceT a => by simp [tyBeq, tyBeq_refl a]
  | .ptrT a => by simp [tyBeq, tyBeq_refl a]
  | .timeT => rfl
  | .basicT _ _ => by simp [tyBeq]

theorem fieldBeq_refl : ∀ a, fieldBeq a a = true
  | .mk _ _ _ _ ty => by simp [fieldBeq, tyBeq_refl ty]

theorem fieldsBeq_refl : ∀ a, fieldsBeq a a = true
  | [] => rfl
  | a :: as => by simp [fieldsBeq, fieldBeq_refl a, fieldsBeq_refl as]
end

instance : DecidableEq GoType := fun a b =>
  if h : tyBeq a b = true then .isTrue (tyBeq_sound a b h)
  else .isFalse (fun he => h (he ▸ tyBeq_refl a))

instance : DecidableEq GoField := fun a b =>
  if h : fieldBeq a b = true then .isTrue (fieldBeq_sound a b h)
  else .isFalse (fun he => h (he ▸ fieldBeq_refl a))

/-- The `for inType.Kind() == reflect.Ptr { inType = inType.Elem() }` loop of
`GetModelStruct` (scope.go:163-165). -/
def stripPtrs : GoType → GoType
  | .ptrT t => stripPtrs t
  | t => t

/-- The `for elemType.Kind() == reflect.Slice || elemType.Kind() == reflect.Ptr`
loop of `buildRelationSlice` (scope.go:257-259). -/
def stripSlicePtr : GoType → GoType
  | .ptrT t => stripSlicePtr t
  | .sliceT t => stripSlicePtr t
  | t => t

/-- The argument unwrapping of `GetModelStruct` (scope.go:97-106): one pointer
indirection, then one slice, then one more pointer indirection. -/
def refTypeKey (t : GoType) : GoType :=
  let t1 := match t with
    | .ptrT e => e
    | x => x
  match t1 with
  | .sliceT e =>
    (match e with
     | .ptrT e2 => e2
     | x => x)
  | x => x

/-- Whether `reflect.New(inType).Interface()` satisfies the
`sql.Scanner` interface assertion (scope.go:168); carried as a flag on the
type (only struct and named basic types implement it in practice). -/
def isScannerTy : GoType → Bool
  | .structT _ _ _ sc _ => sc
  | .basicT _ sc => sc
  | _ => false

def isStructTy : GoType → Bool
  | .structT _ _ _ _ _ => true
  | _ => false

/-- One relationship between two record shapes (`model.Relationship`).  Go zero
values are empty strings and nil slices. -/
structure Relationship where
  kind : String
  polymorphicType : String
  polymorphicDBName : String
  polymorphicValue : String
  foreignFieldNames : List String
  foreignDBNames : List String
  associationForeignFieldNames : List String
  associationForeignDBNames : List String
deriving DecidableEq

def emptyRel : Relationship :=
  { kind := "", polymorphicType := "", polymorphicDBName := "", polymorphicValue := "",
    foreignFieldNames := [], foreignDBNames := [],
    associationForeignFieldNames := [], associationForeignDBNames := [] }

/-- A resolved field descriptor (`model.StructField`).  `typ` is the Go field's
declared type (`field.Struct.Type`), used by the relation builders. -/
structure StructField where
  name : String
  names : List String
  dbName : String
  tagSettings : List (String × String)
  isPrimaryKey : Bool
  isNormal : Bool
  isIgnored : Bool
  isScanner : Bool
  isForeignKey : Bool
  hasDefaultValue : Bool
  relationship : Option Relationship
  typ : GoType
deriving DecidableEq

/-- The fresh descriptor built at scope.go:137-143. -/
def mkStructField (f : GoField) : StructField :=
  { name := f.name, names := [f.name], dbName := "", tagSettings := f.tags,
    isPrimaryKey := false, isNormal := false, isIgnored := false, isScanner := false,
    isForeignKey := false, hasDefaultValue := false, relationship := none, typ := f.typ }

/-- A resolved schema description (`model.Struct`).  The source's
`PrimaryFields []*model.StructField` aliases entries of `StructFields`; the
aliasing is modelled by storing the indices of the primary fields. -/
structure ModelStruct where
  modelType : GoType
  defaultTableName : String
  structFields : List StructField
  primaryIdx : List Nat
deriving DecidableEq

/-- The `m.PrimaryFields` view of a schema description. -/
def ModelStruct.primaryFields (m : ModelStruct) : List StructField :=
  m.primaryIdx.filterMap (fun i => m.structFields.get? i)

/-- The engine state the scope functions read and write: singular-table mode,
the search table-name override (`e.Search`), and the process-wide schema cache
(`e.StructMap`). -/
structure Engine where
  singularTable : Bool
  search : Option String
  structMap : List (GoType × ModelStruct)
deriving DecidableEq

/-- `e.StructMap.Get` — cache lookup keyed by type identity. -/
def structMapGet : List (GoType × ModelStruct) → GoType → Option ModelStruct
  | [], _ => none
  | (k', v) :: rest, k => if tyBeq k' k then some v else structMapGet rest k

/-- `e.StructMap.Set` — cache store (overwrite if present). -/
def structMapSet : List (GoType × ModelStruct) → GoType → ModelStruct → List (GoType × ModelStruct)
  | [], k, v => [(k, v)]
  | (k', v') :: rest, k, v =>
    if tyBeq k' k then (k, v) :: rest else (k', v') :: structMapSet rest k v

/-- Pointwise update of the `i`-th field descriptor (an in-place pointer
mutation in the source). -/
def updateAt : Nat → (StructField → StructField) → List StructField → List StructField
  | _, _, [] => []
  | 0, f, x :: rest => f x :: rest
  | i+1, f, x :: rest => x :: updateAt i f rest

def getForeignFieldAux (column dbCol : String) : Nat → List StructField → Option (Nat × StructField)
  | _, [] => none
  | i, f :: rest =>
    if f.name == column || f.dbName == column || f.dbName == dbCol then some (i, f)
    else getForeignFieldAux column dbCol (i+1) rest

/-- `GetForeignField` (scope.go:736-743): the first field whose name or column
matches, returned together with its position so that the source's in-place
`foreignField.IsForeignKey = true` mutations can be replayed. -/
def getForeignField (column : String) (fields : List StructField) : Option (Nat × StructField) :=
  getForeignFieldAux column (toDBName column) 0 fields

/-- Replay of `foreignField.IsForeignKey = true` on a cached schema description
(the source mutates the cached `*model.Struct` of the relationship's target
shape through the pointer it got from the cache). -/
def patchCache (e : Engine) (k : GoType) (j : Nat) : Engine :=
  { e with structMap := e.structMap.map (fun kv =>
      if tyBeq kv.1 k then
        (kv.1, { kv.2 with
                 structFields := updateAt j (fun f => { f with isForeignKey := true }) kv.2.structFields })
      else kv) }

/-- The dialect facade consumed by the scope package: identifier quoting and
the positional bind-variable token (`Dialect.Quote` / `Dialect.BindVar`). -/
structure Dialect where
  quote : String → String
  bindVar : Nat → String

/-- `Quote` (scope.go:35-44): a dotted identifier is split on `.`, each segment
quoted by the dialect, and the quoted segments rejoined with `.`; an undotted
identifier is quoted whole.  The engine argument is reduced to the dialect it
supplies. -/
def Quote (d : Dialect) (str : String) : String :=
  if str.toList.contains '.' then
    String.intercalate "." ((goSplit str '.').map d.quote)
  else d.quote str

/-- A value handed to `AddToVars`: either an opaque literal (identified by a
tag so distinct literals stay distinct) or a `*model.Expr` composite with its
query text and arguments. -/
inductive SQLValue where
  | plain (tag : Nat)
  | expr (q : String) (args : List SQLValue)

def isPlainVal : SQLValue → Bool
  | .plain _ => true
  | _ => false

def replaceFirstQAux : List Char → List Char → List Char
  | [], _ => []
  | c :: cs, t => if c = '?' then t ++ cs else c :: replaceFirstQAux cs t

/-- Go's `strings.Replace(exp, "?", sub, 1)`: replace the first `?`. -/
def replaceFirstQ (s sub : String) : String :=
  String.mk (replaceFirstQAux s.toList sub.toList)

mutual
/-- `AddToVars` (scope.go:707-718), with the engine reduced to the parts it
touches: `e.Scope.SQLVars` (the bound value list, passed and returned) and
`e.Dialect.BindVar`.  A `*model.Expr` value replaces each `?` of its query
text, left to right, by the binding of the corresponding argument; any other
value is appended and the bind token for the new length returned. -/
def AddToVars (d : Dialect) : List SQLValue → SQLValue → List SQLValue × String
  | vars, .expr q args => addExprArgs d vars q args
  | vars, .plain n => (vars ++ [.plain n], d.bindVar (vars.length + 1))

/-- The `for _, arg := range expr.Args` loop of `AddToVars`. -/
def addExprArgs (d : Dialect) : List SQLValue → String → List SQLValue → List SQLValue × String
  | vars, exp, [] => (vars, exp)
  | vars, exp, a :: rest =>
    let r := AddToVars d vars a
    addExprArgs d r.1 (replaceFirstQ exp r.2) rest
end

/-- Left-to-right replacement of successive `?` occurrences by the given
tokens (the cumulative effect of the `AddToVars` expression loop). -/
def replaceSeq (q : String) (toks : List String) : String :=
  toks.foldl replaceFirstQ q

/-- Modelled from the spec: the condition compiler's primary-key-collection
rule (§4.3) — the `builder` package's source is not available (only its
tests).  A collection of primary-key values compiles to
`("tbl"."pk" IN (tok,...))` (`NOT IN` for the negated form) with one bound
parameter per element, and an empty collection compiles to the empty fragment
with no parameter appended, identically in the positive and negated forms. -/
def compileInCondition (d : Dialect) (tbl pk : String) (negated : Bool)
    (vals : List SQLValue) (vars : List SQLValue) : String × List SQLValue :=
  if vals.isEmpty then ("", vars)
  else
    let r := vals.foldl (fun (acc : List SQLValue × List String) v =>
        let r1 := AddToVars d acc.1 v
        (r1.1, acc.2 ++ [r1.2])) (vars, [])
    ("(" ++ d.quote tbl ++ "." ++ d.quote pk ++ (if negated then " NOT IN (" else " IN (")
       ++ String.intercalate "," r.2 ++ "))", r.1)

/-- The `has_many`/`has_one` default key derivation (scope.go:340-343 and
455-458): one foreign key `associationType + primary.Name` and one association
key `primary.Name` per primary field of the owner. -/
def defaultKeyPairs (assocType : String) (primaries : List StructField) :
    List String × List String :=
  (primaries.map (fun f => assocType ++ f.name), primaries.map (fun f => f.name))

/-- The "generate foreign keys from defined association foreign keys" loops
(scope.go:344-352, 459-466 and 525-533): ranging over the tag's association
list, each name that resolves in `lookupF` contributes `pre + field.Name` to
the foreign keys and appends `field.Name` to the association list being
ranged over (the appends land beyond the range's snapshot). -/
def genFksFromAfks (pre : String) (lookupF : List StructField) (afks : List String) :
    List String × List String :=
  let matched := afks.filterMap (fun n => (getForeignField n lookupF).map (fun p => p.2.name))
  (matched.map (fun n => pre ++ n), afks ++ matched)

/-- The "generate association foreign keys from foreign keys" loops
(scope.go:355-363, 470-478 and 536-544): each tag foreign key starting with
`pre` is trimmed, kept when the trimmed name resolves in `lookupF`. -/
def genAfksFromFks (pre : String) (lookupF : List StructField) (fks : List String) :
    List String :=
  fks.filterMap (fun fk =>
    if goHasPre fk pre then
      let t := fk.drop pre.length
      if (getForeignField t lookupF).isSome then some t else none
    else none)

/-- Accumulator of the foreign-key pairing loops: the four relationship name
lists plus the positions (in the searched field list) whose `IsForeignKey`
flag the source sets. -/
structure PairAcc where
  aff : List String
  afd : List String
  ffn : List String
  fdn : List String
  patched : List Nat
deriving DecidableEq

def emptyPairAcc : PairAcc := ⟨[], [], [], [], []⟩

def pairKeysAux (searchF assocF : List StructField) :
    List String → List String → Nat → PairAcc → Except String PairAcc
  | [], _, _, acc => .ok acc
  | fk :: rest, afks, idx, acc =>
    match getForeignField fk searchF with
    | none => pairKeysAux searchF assocF rest afks (idx+1) acc
    | some (fi, ffld) =>
      match afks.get? idx with
      | none => .error "runtime panic: index out of range"
      | some afk =>
        match getForeignField afk assocF with
        | none => pairKeysAux searchF assocF rest afks (idx+1) acc
        | some (_, afld) =>
          pairKeysAux searchF assocF rest afks (idx+1)
            { aff := acc.aff ++ [afld.name], afd := acc.afd ++ [afld.dbName],
              ffn := acc.ffn ++ [ffld.name], fdn := acc.fdn ++ [ffld.dbName],
              patched := acc.patched ++ [fi] }

/-- The foreign-key pairing loops (scope.go:376-389, 491-504 and 557-571):
`for idx, fk := range fks`, resolving `fk` in `searchF` and
`afks[idx]` in `assocF`; only pairs where both resolve contribute.  The
source's unguarded `afks[idx]` indexing is a runtime panic when `afks` is
shorter than `fks` and `fks[idx]` resolves; that panic is represented as an
error value. -/
def pairKeys (searchF assocF : List StructField) (fks afks : List String) :
    Except String PairAcc :=
  pairKeysAux searchF assocF fks afks 0 emptyPairAcc

/-- The many-to-many source-side loop (scope.go:272-280): for each resolving
foreign key, record its column and the join-table column
`snake(refTypeName) + "_" + column`. -/
def m2mSourceKeys (refTypeName : String) (ownFields : List StructField) :
    List String → List String × List String
  | [] => ([], [])
  | fk :: rest =>
    let r := m2mSourceKeys refTypeName ownFields rest
    match getForeignField fk ownFields with
    | some (_, ff) => (ff.dbName :: r.1, (toDBName refTypeName ++ "_" ++ ff.dbName) :: r.2)
    | none => r

/-- The `engine.Tabler` assertion on a model value (scope.go:654): carried on
the struct type, visible through pointer indirections. -/
def tablerOf : Option GoType → Option String
  | none => none
  | some t =>
    match stripPtrs t with
    | .structT _ tab _ _ _ => tab
    | _ => none

/-- The `engine.DBTabler` assertion on a model value (scope.go:658). -/
def dbTablerOf : Option GoType → Option String
  | none => none
  | some t =>
    match stripPtrs t with
    | .structT _ _ dbt _ _ => dbt
    | _ => none

/-- The tag merge of a scanner-backed struct field (scope.go:171-177): the tag
settings of the underlying struct's fields are folded into the field's own. -/
def mergeTags (tags : List (String × String)) (inner : List GoField) : List (String × String) :=
  inner.foldl (fun acc f => f.tags.foldl (fun a kv => tagSet a kv.1 kv.2) acc) tags

/-- Column-name resolution (scope.go:214-218): the `COLUMN` annotation wins,
else the snake-case of the field name. -/
def columnName (tags : List (String × String)) (name : String) : String :=
  match tagGet tags "COLUMN" with
  | some v => v
  | none => toDBName name

/-- The flattening of an embedded sub-record (scope.go:187-197): each resolved
sub-field is cloned, its name path gets the embedding field's name prepended,
its column gets the `EMBEDDED_PREFIX` when that annotation is present, primary
sub-fields are recorded (by their landing position, starting at `base`), and
the clones are appended in order. -/
def embedFlatten (fname : String) (tags : List (String × String)) (base : Nat) :
    List StructField → List StructField × List Nat
  | [] => ([], [])
  | sub :: rest =>
    let sub2 := { sub with
                  names := fname :: sub.names,
                  dbName := match tagGet tags "EMBEDDED_PREFIX" with
                            | some p => p ++ sub.dbName
                            | none => sub.dbName }
    let r := embedFlatten fname tags (base+1) rest
    (sub2 :: r.1, (if sub2.isPrimaryKey then [base] else []) ++ r.2)

/-- State of the field loop of `GetModelStruct` (scope.go:135-222): the engine
(updated by embedded recursion), the fields and primary indices collected so
far, and the deferred relation builds (field position, `true` for the slice
builder) in registration order. -/
structure LoopSt where
  e : Engine
  structFields : List StructField
  primaryIdx : List Nat
  pending : List (Nat × Bool)
deriving DecidableEq

def exceptIsOk {α : Type} : Except String α → Bool
  | .ok _ => true
  | .error _ => false

/-- Appending one finished field descriptor to the loop state: the descriptor
joins `structFields`; its position is recorded among the primary indices when
it is primary (the source appends the same pointer to `m.PrimaryFields`) and
among the pending deferred relation builds when requested (`defer
buildRelationSlice/Struct`, scope.go:203-206). -/
def pushField (st : LoopSt) (fld : StructField) (isPK : Bool) (pend : Option Bool) : LoopSt :=
  { st with
    structFields := st.structFields ++ [fld],
    primaryIdx := if isPK then st.primaryIdx ++ [st.structFields.length] else st.primaryIdx,
    pending := match pend with
               | some b => st.pending ++ [(st.structFields.length, b)]
               | none => st.pending }

mutual
/-- `GetModelStruct` (scope.go:90-233).  The fuel argument bounds the depth of
recursive resolution; every function of this block consumes one unit per step
so the definitions are structural.  The deferred relation builders run after
the cache store (scope.go:231), in last-in-first-out order, with their
returned errors discarded — on the early error returns of the field loop the
already-registered defers still run before the error is returned. -/
def GetModelStruct : Nat → Engine → Option GoType → Engine × Except String ModelStruct
  | 0, e, _ => (e, .error "insufficient fuel")
  | fuel+1, e, value =>
    match value with
    | none => (e, .error "nil value")
    | some t =>
      match refTypeKey t with
      | .structT name tabler dbTabler sc gofields =>
        let refType := GoType.structT name tabler dbTabler sc gofields
        match structMapGet e.structMap refType with
        | some v => (e, .ok v)
        | none =>
          let defaultTableName :=
            match tabler with
            | some tn => tn
            | none =>
              let tn := toDBName name
              if e.singularTable then tn else pluralize tn
          match fieldLoop fuel { e := e, structFields := [], primaryIdx := [], pending := [] } gofields with
          | (st, some msg) =>
            let m0 : ModelStruct :=
              { modelType := refType, defaultTableName := defaultTableName,
                structFields := st.structFields, primaryIdx := st.primaryIdx }
            let r := runPending fuel st.e value name m0 st.pending.reverse
            (r.1, .error msg)
          | (st, none) =>
            let promoted :=
              if st.primaryIdx.isEmpty then
                match getForeignField "id" st.structFields with
                | some (i, _) =>
                  (updateAt i (fun g => { g with isPrimaryKey := true }) st.structFields, [i])
                | none => (st.structFields, st.primaryIdx)
              else (st.structFields, st.primaryIdx)
            let m0 : ModelStruct :=
              { modelType := refType, defaultTableName := defaultTableName,
                structFields := promoted.1, primaryIdx := promoted.2 }
            let e1 := { st.e with structMap := structMapSet st.e.structMap refType m0 }
            let r := runPending fuel e1 value name m0 st.pending.reverse
            let e3 := { r.1 with structMap := structMapSet r.1.structMap refType r.2 }
            (e3, .ok r.2)
      | _ => (e, .error "is not supported, value should be a struct")
termination_by structural fuel _ _ => fuel

/-- The exported-field loop of `GetModelStruct` (scope.go:135-222). -/
def fieldLoop : Nat → LoopSt → List GoField → LoopSt × Option String
  | _, st, [] => (st, none)
  | 0, st, _ :: _ => (st, some "insufficient fuel")
  | fuel+1, st, f :: rest =>
    if f.exported = false then fieldLoop fuel st rest
    else if tagHas f.tags "-" then
      let fld := { mkStructField f with isIgnored := true, dbName := columnName f.tags f.name }
      fieldLoop fuel (pushField st fld false none) rest
    else
      let isPK := tagHas f.tags "PRIMARY_KEY"
      let hasDef := tagHas f.tags "DEFAULT" || (tagHas f.tags "AUTO_INCREMENT" && !isPK)
      let inType := stripPtrs f.typ
      if isScannerTy inType then
        let tags2 :=
          match inType with
          | .structT _ _ _ _ innerF => mergeTags f.tags innerF
          | _ => f.tags
        let fld := { mkStructField f with
                     isPrimaryKey := isPK, hasDefaultValue := hasDef,
                     isScanner := true, isNormal := true, tagSettings := tags2,
                     dbName := columnName tags2 f.name }
        fieldLoop fuel (pushField st fld isPK none) rest
      else if inType = GoType.timeT then
        let fld := { mkStructField f with
                     isPrimaryKey := isPK, hasDefaultValue := hasDef,
                     isNormal := true, dbName := columnName f.tags f.name }
        fieldLoop fuel (pushField st fld isPK none) rest
      else if tagHas f.tags "EMBEDDED" || f.anonymous then
        match GetModelStruct fuel st.e (some (.ptrT inType)) with
        | (e2, .error msg) => ({ st with e := e2 }, some msg)
        | (e2, .ok ms) =>
          let r := embedFlatten f.name f.tags st.structFields.length ms.structFields
          fieldLoop fuel { st with
                           e := e2,
                           structFields := st.structFields ++ r.1,
                           primaryIdx := st.primaryIdx ++ r.2 } rest
      else
        match inType with
        | .sliceT _ =>
          let fld := { mkStructField f with
                       isPrimaryKey := isPK, hasDefaultValue := hasDef,
                       dbName := columnName f.tags f.name }
          fieldLoop fuel (pushField st fld isPK (some true)) rest
        | .structT _ _ _ _ _ =>
          let fld := { mkStructField f with
                       isPrimaryKey := isPK, hasDefaultValue := hasDef,
                       dbName := columnName f.tags f.name }
          fieldLoop fuel (pushField st fld isPK (some false)) rest
        | _ =>
          let fld := { mkStructField f with
                       isPrimaryKey := isPK, hasDefaultValue := hasDef,
                       isNormal := true, dbName := columnName f.tags f.name }
          fieldLoop fuel (pushField st fld isPK none) rest
termination_by structural fuel _ _ => fuel

/-- Execution of the deferred relation builds: last registered first (Go defer
order), each builder's returned error discarded (the source invokes them as
`defer buildRelation...` so the error never reaches a caller). -/
def runPending : Nat → Engine → Option GoType → String → ModelStruct → List (Nat × Bool) → Engine × ModelStruct
  | _, e, _, _, m, [] => (e, m)
  | 0, e, _, _, m, _ :: _ => (e, m)
  | fuel+1, e, mv, rtn, m, (idx, isSlice) :: rest =>
    let r := if isSlice then buildRelationSlice fuel e mv rtn m idx
             else buildRelationStruct fuel e mv rtn m idx
    runPending fuel r.1 mv rtn r.2.1 rest
termination_by structural fuel _ _ _ _ _ => fuel

/-- `buildRelationSlice` (scope.go:240-399): dispatch on the slice's element
kind; a non-struct element marks the field normal. -/
def buildRelationSlice : Nat → Engine → Option GoType → String → ModelStruct → Nat → Engine × ModelStruct × Except String Unit
  | 0, e, _, _, m, _ => (e, m, .error "insufficient fuel")
  | fuel+1, e, modelValue, refTypeName, m, idx =>
    match m.structFields.get? idx with
    | none => (e, m, .ok ())
    | some field =>
      match stripSlicePtr field.typ with
      | .structT _ _ _ _ _ =>
        if tagVal field.tagSettings "MANY2MANY" = "" then
          hasManyBranch fuel e modelValue refTypeName m idx field
        else
          m2mBranch fuel e refTypeName m idx field
      | _ =>
        (e, { m with structFields := updateAt idx (fun f => { f with isNormal := true }) m.structFields }, .ok ())
termination_by structural fuel _ _ _ _ _ => fuel

/-- The many-to-many branch of `buildRelationSlice` (scope.go:262-308): source
keys default to the owner's primary columns, association keys to the target's
primary columns; join-table columns are `snake(typeName) + "_" + column`; the
relationship is attached unconditionally at the end. -/
def m2mBranch : Nat → Engine → String → ModelStruct → Nat → StructField → Engine × ModelStruct × Except String Unit
  | 0, e, _, m, _, _ => (e, m, .error "insufficient fuel")
  | fuel+1, e, refTypeName, m, idx, field =>
    let fks0 := tagKeys field.tagSettings "FOREIGNKEY"
    let afks0 := tagKeys field.tagSettings "ASSOCIATIONFOREIGNKEY"
    let fks := if fks0.isEmpty then m.primaryFields.map (fun f => f.dbName) else fks0
    let src := m2mSourceKeys refTypeName m.structFields fks
    let elemName :=
      match stripSlicePtr field.typ with
      | .structT n _ _ _ _ => n
      | _ => ""
    let toScope : Option GoType := some (.ptrT field.typ)
    let afksRes : Engine × Except String (List String) :=
      if afks0.isEmpty then
        match PrimaryFields fuel e toScope with
        | (e2, .error msg) => (e2, .error msg)
        | (e2, .ok pf) => (e2, .ok (pf.map (fun f => f.dbName)))
      else (e, .ok afks0)
    match afksRes with
    | (e2, .error msg) => (e2, m, .error msg)
    | (e2, .ok afks) =>
      match m2mAssocLoop fuel e2 toScope elemName afks with
      | (e3, .error msg) => (e3, m, .error msg)
      | (e3, .ok (affs, afds)) =>
        let rel := { emptyRel with
                     kind := "many_to_many",
                     foreignFieldNames := src.1, foreignDBNames := src.2,
                     associationForeignFieldNames := affs, associationForeignDBNames := afds }
        (e3, { m with structFields := updateAt idx (fun f => { f with relationship := some rel }) m.structFields }, .ok ())
termination_by structural fuel _ _ _ _ _ => fuel

/-- The association-side loop of the many-to-many branch (scope.go:293-303):
each association key is resolved by `FieldByName` on the target (an error
aborts the build), contributing its column and the join-table column
`snake(elemTypeName) + "_" + column`. -/
def m2mAssocLoop : Nat → Engine → Option GoType → String → List String → Engine × Except String (List String × List String)
  | _, e, _, _, [] => (e, .ok ([], []))
  | 0, e, _, _, _ :: _ => (e, .error "insufficient fuel")
  | fuel+1, e, toScope, elemName, name :: rest =>
    match FieldByName fuel e toScope name with
    | (e2, .error msg) => (e2, .error msg)
    | (e2, .ok fld) =>
      match m2mAssocLoop fuel e2 toScope elemName rest with
      | (e3, .error msg) => (e3, .error msg)
      | (e3, .ok (ax, bx)) =>
        (e3, .ok (fld.dbName :: ax, (toDBName elemName ++ "_" ++ fld.dbName) :: bx))
termination_by structural fuel _ _ _ _ => fuel

/-- The `has_many` branch of `buildRelationSlice` (scope.go:309-394): resolve
the target shape, apply the polymorphic annotation, derive the two key lists
(overrides first, conventions second, mismatched override lengths failing),
pair them against the target's fields and attach the relationship only when at
least one pair resolved. -/
def hasManyBranch : Nat → Engine → Option GoType → String → ModelStruct → Nat → StructField → Engine × ModelStruct × Except String Unit
  | 0, e, _, _, m, _, _ => (e, m, .error "insufficient fuel")
  | fuel+1, e, modelValue, refTypeName, m, idx, field =>
    let fks0 := tagKeys field.tagSettings "FOREIGNKEY"
    let afks0 := tagKeys field.tagSettings "ASSOCIATIONFOREIGNKEY"
    let toScope : Option GoType := some (.ptrT field.typ)
    let toKey := refTypeKey (.ptrT field.typ)
    match GetModelStruct fuel e toScope with
    | (e1, .error msg) => (e1, m, .error msg)
    | (e1, .ok ms) =>
      let toFields := ms.structFields
      let poly := tagVal field.tagSettings "POLYMORPHIC"
      let polyRes : String × Relationship × Engine :=
        if poly = "" then (refTypeName, { emptyRel with kind := "has_many" }, e1)
        else
          match getForeignField (poly ++ "Type") toFields with
          | some (pi, pt) =>
            let pv :=
              match tagGet field.tagSettings "POLYMORPHIC_VALUE" with
              | some v => v
              | none => e1.search.getD ""
            (poly, { emptyRel with
                     kind := "has_many", polymorphicType := pt.name,
                     polymorphicDBName := pt.dbName, polymorphicValue := pv },
             patchCache e1 toKey pi)
          | none => (refTypeName, { emptyRel with kind := "has_many" }, e1)
      let assocType := polyRes.1
      let rel0 := polyRes.2.1
      let e2 := polyRes.2.2
      let keyRes : Engine × Except String (List String × List String) :=
        if fks0.isEmpty then
          if afks0.isEmpty then
            (e2, .ok (defaultKeyPairs assocType m.primaryFields))
          else
            (e2, .ok (genFksFromAfks assocType m.structFields afks0))
        else
          if afks0.isEmpty then
            let gen := genAfksFromFks assocType m.structFields fks0
            if gen.isEmpty && fks0.length == 1 then
              match PrimaryKey fuel e2 modelValue with
              | (e3, .error msg) => (e3, .error msg)
              | (e3, .ok pk) => (e3, .ok (fks0, [pk]))
            else (e2, .ok (fks0, gen))
          else if fks0.length ≠ afks0.length then
            (e2, .error "invalid foreign keys, should have same length")
          else (e2, .ok (fks0, afks0))
      match keyRes with
      | (e3, .error msg) => (e3, m, .error msg)
      | (e3, .ok (fks, afks)) =>
        match pairKeys toFields m.structFields fks afks with
        | .error msg => (e3, m, .error msg)
        | .ok acc =>
          let e4 := acc.patched.foldl (fun ei i => patchCache ei toKey i) e3
          let m2 :=
            if acc.ffn.isEmpty then m
            else { m with structFields := updateAt idx (fun f =>
                   { f with relationship := some { rel0 with
                       foreignFieldNames := acc.ffn, foreignDBNames := acc.fdn,
                       associationForeignFieldNames := acc.aff,
                       associationForeignDBNames := acc.afd } }) m.structFields }
          (e4, m2, .ok ())
termination_by structural fuel _ _ _ _ _ _ => fuel

/-- `buildRelationStruct` (scope.go:406-579): resolve the target shape, apply
the polymorphic annotation (whose value defaults to the owner's table name),
attempt `has_one` (target holds the foreign key); when no pair resolves, fall
back to `belongs_to`. -/
def buildRelationStruct : Nat → Engine → Option GoType → String → ModelStruct → Nat → Engine × ModelStruct × Except String Unit
  | 0, e, _, _, m, _ => (e, m, .error "insufficient fuel")
  | fuel+1, e, modelValue, refTypeName, m, idx =>
    match m.structFields.get? idx with
    | none => (e, m, .ok ())
    | some field =>
      let toScope : Option GoType := some (.ptrT field.typ)
      let toKey := refTypeKey (.ptrT field.typ)
      match GetModelStruct fuel e toScope with
      | (e1, .error msg) => (e1, m, .error msg)
      | (e1, .ok ms) =>
        let toFields := ms.structFields
        let poly := tagVal field.tagSettings "POLYMORPHIC"
        let polyRes : String × Relationship × Engine :=
          if poly = "" then (refTypeName, emptyRel, e1)
          else
            match getForeignField (poly ++ "Type") toFields with
            | some (pi, pt) =>
              (match tagGet field.tagSettings "POLYMORPHIC_VALUE" with
               | some v =>
                 (poly, { emptyRel with
                          polymorphicType := pt.name, polymorphicDBName := pt.dbName,
                          polymorphicValue := v },
                  patchCache e1 toKey pi)
               | none =>
                 match TableName fuel e1 modelValue with
                 | (e1b, tn) =>
                   (poly, { emptyRel with
                            polymorphicType := pt.name, polymorphicDBName := pt.dbName,
                            polymorphicValue := tn },
                    patchCache e1b toKey pi))
            | none => (refTypeName, emptyRel, e1)
        let assocType := polyRes.1
        let rel0 := polyRes.2.1
        let e2 := polyRes.2.2
        let fks0 := tagKeys field.tagSettings "FOREIGNKEY"
        let afks0 := tagKeys field.tagSettings "ASSOCIATIONFOREIGNKEY"
        let keyRes : Engine × Except String (List String × List String) :=
          if fks0.isEmpty then
            if afks0.isEmpty then
              (e2, .ok (defaultKeyPairs assocType m.primaryFields))
            else
              (e2, .ok (genFksFromAfks assocType m.structFields afks0))
          else
            if afks0.isEmpty then
              let gen := genAfksFromFks assocType m.structFields fks0
              if gen.isEmpty && fks0.length == 1 then
                match PrimaryKey fuel e2 modelValue with
                | (e3, .error msg) => (e3, .error msg)
                | (e3, .ok pk) => (e3, .ok (fks0, [pk]))
              else (e2, .ok (fks0, gen))
            else if fks0.length ≠ afks0.length then
              (e2, .error "invalid foreign keys, should have same length")
            else (e2, .ok (fks0, afks0))
        match keyRes with
        | (e3, .error msg) => (e3, m, .error msg)
        | (e3, .ok (fks, afks)) =>
          match pairKeys toFields m.structFields fks afks with
          | .error msg => (e3, m, .error msg)
          | .ok acc =>
            let e4 := acc.patched.foldl (fun ei i => patchCache ei toKey i) e3
            if acc.ffn.isEmpty then
              belongsToBranch fuel e4 m idx field toFields rel0
            else
              (e4, { m with structFields := updateAt idx (fun f =>
                     { f with relationship := some { rel0 with
                         kind := "has_one",
                         foreignFieldNames := acc.ffn, foreignDBNames := acc.fdn,
                         associationForeignFieldNames := acc.aff,
                         associationForeignDBNames := acc.afd } }) m.structFields }, .ok ())
termination_by structural fuel _ _ _ _ _ => fuel

/-- The `belongs_to` fallback of `buildRelationStruct` (scope.go:510-577):
foreign keys default to `field.Name + primary.Name` over the target's primary
fields, the pairing searches the owner's own fields (whose `IsForeignKey`
flags are set in place), and the relationship is attached only when at least
one pair resolved. -/
def belongsToBranch : Nat → Engine → ModelStruct → Nat → StructField → List StructField → Relationship → Engine × ModelStruct × Except String Unit
  | 0, e, m, _, _, _, _ => (e, m, .error "insufficient fuel")
  | fuel+1, e, m, idx, field, toFields, rel0 =>
    let fks0 := tagKeys field.tagSettings "FOREIGNKEY"
    let afks0 := tagKeys field.tagSettings "ASSOCIATIONFOREIGNKEY"
    let toScope : Option GoType := some (.ptrT field.typ)
    let keyRes : Engine × Except String (List String × List String) :=
      if fks0.isEmpty then
        if afks0.isEmpty then
          match PrimaryFields fuel e toScope with
          | (e2, .error msg) => (e2, .error msg)
          | (e2, .ok pf) =>
            (e2, .ok (pf.map (fun p => field.name ++ p.name), pf.map (fun p => p.name)))
        else
          (e, .ok (genFksFromAfks field.name toFields afks0))
      else
        if afks0.isEmpty then
          let gen := genAfksFromFks field.name toFields fks0
          if gen.isEmpty && fks0.length == 1 then
            match PrimaryKey fuel e toScope with
            | (e2, .error msg) => (e2, .error msg)
            | (e2, .ok pk) => (e2, .ok (fks0, [pk]))
          else (e, .ok (fks0, gen))
        else if fks0.length ≠ afks0.length then
          (e, .error "invalid foreign keys, should have same length")
        else (e, .ok (fks0, afks0))
    match keyRes with
    | (e3, .error msg) => (e3, m, .error msg)
    | (e3, .ok (fks, afks)) =>
      match pairKeys m.structFields toFields fks afks with
      | .error msg => (e3, m, .error msg)
      | .ok acc =>
        let m2 := acc.patched.foldl (fun mi i =>
            { mi with structFields := updateAt i (fun f => { f with isForeignKey := true }) mi.structFields }) m
        let m3 :=
          if acc.ffn.isEmpty then m2
          else { m2 with structFields := updateAt idx (fun f =>
                 { f with relationship := some { rel0 with
                     kind := "belongs_to",
                     foreignFieldNames := acc.ffn, foreignDBNames := acc.fdn,
                     associationForeignFieldNames := acc.aff,
                     associationForeignDBNames := acc.afd } }) m2.structFields }
        (e3, m3, .ok ())
termination_by structural fuel _ _ _ _ _ _ => fuel

/-- `Fields` (scope.go:49-77), reduced to the descriptor list: the source wraps
each `StructField` with the record instance's runtime value and blank flag,
which are value-level data outside this type-level embedding; every consumer
in scope reads only the descriptor part. -/
def Fields : Nat → Engine → Option GoType → Engine × Except String (List StructField)
  | 0, e, _ => (e, .error "insufficient fuel")
  | fuel+1, e, value =>
    match GetModelStruct fuel e value with
    | (e1, .error msg) => (e1, .error msg)
    | (e1, .ok m) => (e1, .ok m.structFields)
termination_by structural fuel _ _ => fuel

/-- `FieldByName` (scope.go:584-600). -/
def FieldByName : Nat → Engine → Option GoType → String → Engine × Except String StructField
  | 0, e, _, _ => (e, .error "insufficient fuel")
  | fuel+1, e, value, name =>
    let dbName := toDBName name
    match Fields fuel e value with
    | (e1, .error msg) => (e1, .error msg)
    | (e1, .ok fds) =>
      match fds.find? (fun f => f.name == name || f.dbName == name || f.dbName == dbName) with
      | some f => (e1, .ok f)
      | none => (e1, .error "field not found")
termination_by structural fuel _ _ _ => fuel

/-- `PrimaryFields` (scope.go:603-615). -/
def PrimaryFields : Nat → Engine → Option GoType → Engine × Except String (List StructField)
  | 0, e, _ => (e, .error "insufficient fuel")
  | fuel+1, e, value =>
    match Fields fuel e value with
    | (e1, .error msg) => (e1, .error msg)
    | (e1, .ok fds) => (e1, .ok (fds.filter (fun f => f.isPrimaryKey)))
termination_by structural fuel _ _ => fuel

/-- `PrimaryField` (scope.go:619-639): more than one primary field falls back
to the field named/columned `id`; exactly one returns the first primary field;
none is the `NoPrimaryKey` failure (`"no field found"`). -/
def PrimaryField : Nat → Engine → Option GoType → Engine × Except String StructField
  | 0, e, _ => (e, .error "insufficient fuel")
  | fuel+1, e, value =>
    match GetModelStruct fuel e value with
    | (e1, .error msg) => (e1, .error msg)
    | (e1, .ok m) =>
      if m.primaryFields.length > 0 then
        if m.primaryFields.length > 1 then FieldByName fuel e1 value "id"
        else
          match PrimaryFields fuel e1 value with
          | (e2, .error msg) => (e2, .error msg)
          | (e2, .ok pf) =>
            match pf with
            | p :: _ => (e2, .ok p)
            | [] => (e2, .error "runtime panic: index out of range")
      else (e1, .error "no field found")
termination_by structural fuel _ _ => fuel

/-- `PrimaryKey` (scope.go:670-676): the primary field's column name. -/
def PrimaryKey : Nat → Engine → Option GoType → Engine × Except String String
  | 0, e, _ => (e, .error "insufficient fuel")
  | fuel+1, e, value =>
    match PrimaryField fuel e value with
    | (e1, .error msg) => (e1, .error msg)
    | (e1, .ok pf) => (e1, .ok pf.dbName)
termination_by structural fuel _ _ => fuel

/-- `TableName` (scope.go:649-667): the search override wins, then the
`Tabler`/`DBTabler` capabilities, then the resolved default table name (empty
on resolution failure). -/
def TableName : Nat → Engine → Option GoType → Engine × String
  | 0, e, _ => (e, "")
  | fuel+1, e, value =>
    if (e.search.getD "").length > 0 then (e, e.search.getD "")
    else
      match tablerOf value with
      | some tn => (e, tn)
      | none =>
        match dbTablerOf value with
        | some tn => (e, tn)
        | none =>
          match GetModelStruct fuel e value with
          | (e2, .error _) => (e2, "")
          | (e2, .ok ms) => (e2, ms.defaultTableName)
termination_by structural fuel _ _ => fuel
end

/-! Concrete record shapes used to exercise the resolver. -/

def theDialect : Dialect :=
  { quote := fun s => "\"" ++ s ++ "\"", bindVar := fun n => "$" ++ toString n }

def E0 : Engine := { singularTable := false, search := none, structMap := [] }

def intTy : GoType := .basicT "int" false

def stringTy : GoType := .basicT "string" false

def pkTag : List (String × String) := [("PRIMARY_KEY", "PRIMARY_KEY")]

/-- A plain record: `type User struct { Name string }`. -/
def UserT : GoType := .structT "User" none none false [.mk "Name" false true [] stringTy]

/-- `type Comment struct { ID int (primary); UserID int; Content string }`. -/
def CommentT : GoType :=
  .structT "Comment" none none false
    [.mk "ID" false true pkTag intTy,
     .mk "UserID" false true [] intTy,
     .mk "Content" false true [] stringTy]

/-- An owner whose collection field carries explicit override lists of
different lengths: `FOREIGNKEY:"X,Y"` against `ASSOCIATIONFOREIGNKEY:"Z"`. -/
def UserCT : GoType :=
  .structT "UserC" none none false
    [.mk "ID" false true pkTag intTy,
     .mk "Comments" false true
       [("FOREIGNKEY", "X,Y"), ("ASSOCIATIONFOREIGNKEY", "Z")] (.sliceT CommentT)]

/-- A target shape on which no foreign-key pair can resolve. -/
def BareT : GoType := .structT "Bare" none none false [.mk "Name" false true [] stringTy]

/-- An owner with a struct-typed field whose relationship inference finds no
pair: `type Holder struct { ID int (primary); B Bare }`. -/
def HolderT : GoType :=
  .structT "Holder" none none false
    [.mk "ID" false true pkTag intTy,
     .mk "B" false true [] BareT]

/-- A shape with one annotated primary key and an explicit column name. -/
def OnePKT : GoType :=
  .structT "OnePK" none none false
    [.mk "Code" false true (pkTag ++ [("COLUMN", "code_col")]) intTy,
     .mk "Name" false true [] stringTy]

/-- A shape with no annotated primary key but a field columned `id`. -/
def IdOnlyT : GoType :=
  .structT "IdOnly" none none false
    [.mk "ID" false true [] intTy,
     .mk "Name" false true [] stringTy]

/-- A shape with neither an annotated primary key nor an `id` field. -/
def NoPKT : GoType := .structT "NoPK" none none false [.mk "Name" false true [] stringTy]

/-- Two annotated primary keys plus a plain field columned `id`. -/
def MultiPKT : GoType :=
  .structT "MultiPK" none none false
    [.mk "A" false true pkTag intTy,
     .mk "B" false true pkTag intTy,
     .mk "ID" false true [] intTy]

/-- Two annotated primary keys and no `id` field at all. -/
def MultiPKNoIdT : GoType :=
  .structT "MultiPKNoId" none none false
    [.mk "A" false true pkTag intTy,
     .mk "B" false true pkTag intTy]

/-- The embedded sub-record: `type Address struct { City string; Zip string (column zipcode) }`. -/
def AddressT : GoType :=
  .structT "Address" none none false
    [.mk "City" false true [] stringTy,
     .mk "Zip" false true [("COLUMN", "zipcode")] stringTy]

/-- An owner embedding `Address` with a column prefix. -/
def EmbT : GoType :=
  .structT "Emb" none none false
    [.mk "ID" false true pkTag intTy,
     .mk "Address" false true [("EMBEDDED", "EMBEDDED"), ("EMBEDDED_PREFIX", "addr_")] AddressT,
     .mk "Note" false true [] stringTy]

def fallbackModel : ModelStruct :=
  { modelType := .timeT, defaultTableName := "", structFields := [], primaryIdx := [] }

/-- A plain relationship target for the struct-field case. -/
def PTargetT : GoType := .structT "PTarget" none none false [.mk "X" false true [] intTy]

/-- An owner whose struct-typed field carries mismatched override lists. -/
def HolderMT : GoType :=
  .structT "HolderM" none none false
    [.mk "ID" false true pkTag intTy,
     .mk "P" false true
       [("FOREIGNKEY", "A,B"), ("ASSOCIATIONFOREIGNKEY", "C")] PTargetT]

def fallbackField : StructField := mkStructField (.mk "" false false [] .timeT)

/-- The column-name/primary-flag signature of a field descriptor: the part the
primary-key lookup reads, which the relation builders never modify (they touch
only `relationship`, `isNormal` and `isForeignKey`). -/
def pkSig (f : StructField) : String × Bool := (f.dbName, f.isPrimaryKey)

/-- The normal-flag/relationship signature of a field descriptor: the part the
builders' `IsForeignKey` patch loops never modify. -/
def relSig (f : StructField) : Bool × Option Relationship := (f.isNormal, f.relationship)

/-- A target with the conventional `OwnerHID` foreign key. -/
def NoteT : GoType :=
  .structT "Note" none none false
    [.mk "ID" false true pkTag intTy, .mk "OwnerHID" false true [] intTy]

/-- An owner whose struct field resolves a `has_one` pair on `Note`. -/
def OwnerHT : GoType :=
  .structT "OwnerH" none none false
    [.mk "ID" false true pkTag intTy, .mk "Note" false true [] NoteT]

/-- A shape with a slice field over a non-record element type. -/
def SliceIntT : GoType :=
  .structT "SI" none none false [.mk "Nums" false true [] (.sliceT intTy)]

def TagT : GoType := .structT "Tag" none none false [.mk "ID" false true pkTag intTy]

/-- A shape with a `MANY2MANY`-annotated collection field. -/
def M2MT : GoType :=
  .structT "M2M" none none false
    [.mk "ID" false true pkTag intTy,
     .mk "Tags" false true [("MANY2MANY", "m2m_tags")] (.sliceT TagT)]

/-- The `OwnerH` description as `fieldLoop` produces it, before the deferred
relation builds run. -/
def MOwnerH : ModelStruct :=
  { modelType := OwnerHT, defaultTableName := "owner_hs",
    structFields := (fieldLoop 19 { e := E0, structFields := [], primaryIdx := [], pending := [] }
      [.mk "ID" false true pkTag intTy, .mk "Note" false true [] NoteT]).1.structFields,
    primaryIdx := (fieldLoop 19 { e := E0, structFields := [], primaryIdx := [], pending := [] }
      [.mk "ID" false true pkTag intTy, .mk "Note" false true [] NoteT]).1.primaryIdx }

/-- An owner with a `[]Note` collection field, as `fieldLoop` produces it. -/
def MOwnerHM : ModelStruct :=
  { modelType := OwnerHT, defaultTableName := "owner_hs",
    structFields := (fieldLoop 19 { e := E0, structFields := [], primaryIdx := [], pending := [] }
      [.mk "ID" false true pkTag intTy, .mk "Notes" false true [] (.sliceT NoteT)]).1.structFields,
    primaryIdx := (fieldLoop 19 { e := E0, structFields := [], primaryIdx := [], pending := [] }
      [.mk "ID" false true pkTag intTy, .mk "Notes" false true [] (.sliceT NoteT)]).1.primaryIdx }

/-- The `SI` description (one `[]int` field), as `fieldLoop` produces it. -/
def MSliceI : ModelStruct :=
  { modelType := SliceIntT, defaultTableName := "sis",
    structFields := (fieldLoop 19 { e := E0, structFields := [], primaryIdx := [], pending := [] }
      [.mk "Nums" false true [] (.sliceT intTy)]).1.structFields,
    primaryIdx := (fieldLoop 19 { e := E0, structFields := [], primaryIdx := [], pending := [] }
      [.mk "Nums" false true [] (.sliceT intTy)]).1.primaryIdx }

/-- The `M2M` description, as `fieldLoop` produces it. -/
def MM2M : ModelStruct :=
  { modelType := M2MT, defaultTableName := "m2_ms",
    structFields := (fieldLoop 19 { e := E0, structFields := [], primaryIdx := [], pending := [] }
      [.mk "ID" false true pkTag intTy,
       .mk "Tags" false true [("MANY2MANY", "m2m_tags")] (.sliceT TagT)]).1.structFields,
    primaryIdx := (fieldLoop 19 { e := E0, structFields := [], primaryIdx := [], pending := [] }
      [.mk "ID" false true pkTag intTy,
       .mk "Tags" false true [("MANY2MANY", "m2m_tags")] (.sliceT TagT)]).1.primaryIdx }

/-! Basic lemmas about the cache and the list helpers. -/

theorem structMapGet_set (sm : List (GoType × ModelStruct)) (k : GoType) (v : ModelStruct) :
    structMapGet (structMapSet sm k v) k = some v := by
  induction sm with
  | nil => simp [structMapSet, structMapGet, tyBeq_refl]
  | cons hd tl ih =>
    by_cases h : tyBeq hd.1 k = true
    · simp [structMapSet, structMapGet, h, tyBeq_refl]
    · simp [structMapSet, structMapGet, h, ih]

theorem getForeignFieldAux_get? (column dbCol : String) :
    ∀ (l : List StructField) (j r : Nat) (f : StructField),
      getForeignFieldAux column dbCol j l = some (r, f) → j ≤ r ∧ l.get? (r - j) = some f := by
  intro l
  induction l with
  | nil => intro j r f h; simp [getForeignFieldAux] at h
  | cons hd tl ih =>
    intro j r f h
    simp only [getForeignFieldAux] at h
    by_cases hc : (hd.name == column || hd.dbName == column || hd.dbName == dbCol) = true
    · rw [if_pos hc] at h
      obtain ⟨h1, h2⟩ := Prod.mk.injEq .. ▸ (Option.some.injEq .. ▸ h :)
      subst h1
      subst h2
      simp
    · rw [if_neg hc] at h
      obtain ⟨hle, hget⟩ := ih (j+1) r f h
      refine ⟨by omega, ?_⟩
      have hrj : r - j = (r - (j+1)) + 1 := by omega
      rw [hrj]
      simpa using hget

theorem getForeignField_get? (column : String) (l : List StructField) (i : Nat) (f : StructField)
    (h : getForeignField column l = some (i, f)) : l.get? i = some f := by
  have := getForeignFieldAux_get? column (toDBName column) l 0 i f h
  simpa using this.2

theorem updateAt_get?_self (g : StructField → StructField) :
    ∀ (i : Nat) (l : List StructField), (updateAt i g l).get? i = (l.get? i).map g := by
  intro i
  induction i with
  | zero => intro l; cases l <;> simp [updateAt]
  | succ i ih =>
    intro l
    cases l with
    | nil => simp [updateAt]
    | cons hd tl => simpa [updateAt] using ih tl

theorem updateAt_map_proj {β : Type} (proj : StructField → β) (g : StructField → StructField)
    (hg : ∀ x, proj (g x) = proj x) :
    ∀ (i : Nat) (l : List StructField), (updateAt i g l).map proj = l.map proj := by
  intro i
  induction i with
  | zero => intro l; cases l <;> simp [updateAt, hg]
  | succ i ih => intro l; cases l <;> simp [updateAt, ih]

/-- Success of `GetModelStruct` implies the unwrapped shape is a struct and the
returned description is exactly what the final engine's cache holds for it. -/
theorem GetModelStruct_ok_cached (fuel : Nat) (e : Engine) (t : GoType) (e' : Engine)
    (m : ModelStruct) (h : GetModelStruct (fuel+1) e (some t) = (e', .ok m)) :
    isStructTy (refTypeKey t) = true ∧ structMapGet e'.structMap (refTypeKey t) = some m := by
  cases ht : refTypeKey t with
  | structT name tab dbt sc gfs =>
    simp only [GetModelStruct, ht] at h
    refine ⟨rfl, ?_⟩
    cases hget : structMapGet e.structMap (GoType.structT name tab dbt sc gfs) with
    | some v =>
      rw [hget] at h
      simp only at h
      obtain ⟨h1, h2⟩ : e = e' ∧ Except.ok (ε := String) v = Except.ok m := by
        simpa [Prod.ext_iff] using h
      obtain rfl : v = m := by simpa using h2
      exact h1 ▸ hget
    | none =>
      rw [hget] at h
      simp only at h
      split at h
      · simp at h
      · obtain ⟨h1, h2⟩ := by simpa [Prod.ext_iff] using h
        rw [← h1, ← h2]
        exact structMapGet_set ..
  | sliceT el => simp [GetModelStruct, ht] at h
  | ptrT el => simp [GetModelStruct, ht] at h
  | timeT => simp [GetModelStruct, ht] at h
  | basicT n s => simp [GetModelStruct, ht] at h

/-- A cache hit returns the cached description and leaves the engine
untouched, for any positive fuel. -/
theorem GetModelStruct_hit (fuel : Nat) (e : Engine) (t : GoType) (m : ModelStruct)
    (hs : isStructTy (refTypeKey t) = true)
    (hget : structMapGet e.structMap (refTypeKey t) = some m) :
    GetModelStruct (fuel+1) e (some t) = (e, .ok m) := by
  cases ht : refTypeKey t with
  | structT name tab dbt sc gfs =>
    rw [ht] at hget
    simp only [GetModelStruct, ht, hget]
  | sliceT el => rw [ht] at hs; simp [isStructTy] at hs
  | ptrT el => rw [ht] at hs; simp [isStructTy] at hs
  | timeT => rw [ht] at hs; simp [isStructTy] at hs
  | basicT n s => rw [ht] at hs; simp [isStructTy] at hs

end Ngorm

namespace Ngorm

theorem addExprArgs_plain (d : Dialect) :
    ∀ (args : List SQLValue) (vars : List SQLValue) (q : String),
      (∀ a ∈ args, isPlainVal a = true) →
      addExprArgs d vars q args =
        (vars ++ args,
         replaceSeq q ((List.range args.length).map (fun i => d.bindVar (vars.length + i + 1)))) := by
  intro args
  induction args with
  | nil => intro vars q h; simp [addExprArgs, replaceSeq]
  | cons a rest ih =>
    intro vars q h
    have ha : isPlainVal a = true := h a (List.mem_cons_self ..)
    obtain ⟨n, rfl⟩ : ∃ n, a = .plain n := by
      cases a with
      | plain n => exact ⟨n, rfl⟩
      | expr q2 as2 => simp [isPlainVal] at ha
    simp only [addExprArgs, AddToVars]
    rw [ih (vars ++ [SQLValue.plain n]) (replaceFirstQ q (d.bindVar (vars.length + 1)))
         (fun x hx => h x (List.mem_cons_of_mem _ hx))]
    simp only [replaceSeq, Prod.mk.injEq]
    constructor
    · simp
    · rw [show (SQLValue.plain n :: rest).length = rest.length + 1 from rfl,
        List.range_succ_eq_map, List.map_cons, List.foldl_cons, List.map_map]
      congr 1 ; norm_num
      intro a _
      congr 1
      omega

/-- C7: a non-expression value appended via `AddToVars` extends the bound
value list by exactly that one entry (prior entries untouched, order kept) and
the returned token is the dialect's bind variable for the new 1-based length;
an expression whose arguments are plain values appends one entry per argument
and replaces the text's `?` occurrences left to right with the successive
positional tokens. -/
theorem c7_add_to_vars :
    (∀ (d : Dialect) (vars : List SQLValue) (n : Nat),
      AddToVars d vars (.plain n) = (vars ++ [.plain n], d.bindVar (vars.length + 1)))
    ∧ (∀ (d : Dialect) (vars : List SQLValue) (q : String) (args : List SQLValue),
      (∀ a ∈ args, isPlainVal a = true) →
      AddToVars d vars (.expr q args) =
        (vars ++ args,
         replaceSeq q ((List.range args.length).map (fun i => d.bindVar (vars.length + i + 1))))) :=
  ⟨fun _ _ _ => rfl, fun d vars q args h => addExprArgs_plain d args vars q h⟩

/-- Witness for C7 at a concrete dialect, sink and expression. -/
theorem c7_add_to_vars_witness :
    AddToVars theDialect [SQLValue.plain 9] (.expr "a=? AND b=?" [.plain 1, .plain 2])
      = ([SQLValue.plain 9, .plain 1, .plain 2], "a=$2 AND b=$3") := by
  have h := c7_add_to_vars.2 theDialect [SQLValue.plain 9] "a=? AND b=?"
    [.plain 1, .plain 2] (by decide)
  exact h.trans (by rfl)

/-- C8: a dotted identifier is split on the dots, each segment quoted by the
dialect, and the quoted segments rejoined with `.`; an undotted identifier is
quoted as a single identifier. -/
theorem c8_quote (d : Dialect) (str : String) :
    (str.toList.contains '.' = true →
      Quote d str = String.intercalate "." ((goSplit str '.').map d.quote))
    ∧ (str.toList.contains '.' = false → Quote d str = d.quote str) := by
  constructor
  · intro h
    simp only [Quote]
    rw [if_pos h]
  · intro h
    simp only [Quote]
    rw [if_neg (fun hc => absurd (h.symm.trans hc) (by decide))]

/-- Witness for C8 on a dotted and an undotted identifier. -/
theorem c8_quote_witness :
    Quote theDialect "one.two"
        = String.intercalate "." ((goSplit "one.two" '.').map theDialect.quote)
    ∧ Quote theDialect "plain" = theDialect.quote "plain" :=
  ⟨(c8_quote theDialect "one.two").1 (by decide),
   (c8_quote theDialect "plain").2 (by decide)⟩

/-- C9: compiling a condition over an empty collection of primary-key values
yields the empty SQL fragment and appends no parameter, in the positive and
the negated (`NOT`) forms alike. -/
theorem c9_empty_collection (d : Dialect) (tbl pk : String) (vars : List SQLValue) :
    compileInCondition d tbl pk false [] vars = ("", vars)
    ∧ compileInCondition d tbl pk true [] vars = ("", vars) :=
  ⟨rfl, rfl⟩

/-- C1 is contradicted by the code: the relation builders are invoked through
`defer` with their returned error discarded (scope.go:203-206), after the
description was already published to the cache (scope.go:231).  On a shape
whose slice field carries mismatched override lists, `GetModelStruct`
succeeds, publishes the description, and attaches no relationship, while the
relationship builder run on the very same field fails with the
`InvalidRelationship` error — which therefore never reaches the caller. -/
theorem c1_relationship_error_absorbed :
    exceptIsOk (GetModelStruct 20 E0 (some UserCT)).2 = true
    ∧ (structMapGet (GetModelStruct 20 E0 (some UserCT)).1.structMap UserCT).isSome = true
    ∧ ((GetModelStruct 20 E0 (some UserCT)).2.toOption.map
        (fun m => m.structFields.map (fun f => f.relationship.isNone))) = some [true, true]
    ∧ exceptIsOk (buildRelationSlice 20 (GetModelStruct 20 E0 (some UserCT)).1 (some UserCT)
        "UserC" ((GetModelStruct 20 E0 (some UserCT)).2.toOption.getD fallbackModel) 1).2.2
      = false := by
  refine ⟨by decide, by decide, by decide, by decide⟩

/-- C3: a successful resolution publishes exactly the returned description to
the cache, and any later call for the same shape (with any positive fuel)
returns that cached description with the engine unchanged. -/
theorem c3_resolution_idempotent (fuel : Nat) (e : Engine) (t : GoType) (e' : Engine)
    (m : ModelStruct) (h : GetModelStruct (fuel+1) e (some t) = (e', .ok m)) :
    structMapGet e'.structMap (refTypeKey t) = some m
    ∧ ∀ fuel', GetModelStruct (fuel'+1) e' (some t) = (e', .ok m) := by
  obtain ⟨hs, hc⟩ := GetModelStruct_ok_cached fuel e t e' m h
  exact ⟨hc, fun fuel' => GetModelStruct_hit fuel' e' t m hs hc⟩

/-- Witness for C3: resolving `User` twice returns the identical result pair. -/
theorem c3_resolution_idempotent_witness :
    GetModelStruct 20 (GetModelStruct 20 E0 (some UserT)).1 (some UserT)
      = GetModelStruct 20 E0 (some UserT) := by
  have h : GetModelStruct 20 E0 (some UserT)
      = ((GetModelStruct 20 E0 (some UserT)).1,
         .ok ((GetModelStruct 20 E0 (some UserT)).2.toOption.getD fallbackModel)) := by rfl
  exact ((c3_resolution_idempotent 19 E0 UserT _ _ h).2 19).trans h.symm

/-- C2 as stated is false on the code: on `Holder`, whose struct field `B`
admits no foreign-key pair, no relationship is attached (as the claim says)
but the field does not degrade to `isNormal` — neither relation builder ever
sets `isNormal` for a struct-typed field, so the flag stays `false` where the
claim requires `true`. -/
theorem c2_counterexample :
    ((GetModelStruct 20 E0 (some HolderT)).2.toOption.bind
        (fun m => m.structFields.get? 1)).map (fun f => (f.relationship.isNone, f.isNormal))
      = some (true, false) := by decide

end Ngorm

namespace Ngorm

/-- C5: when both explicit override lists are non-empty with different
lengths, relationship inference fails with the `InvalidRelationship` error
(`"invalid foreign keys, should have same length"`) instead of resolving a
prefix of the pairs — in the slice-valued (`has_many`) case and the
struct-valued (`has_one`/`belongs_to`) case alike.  The resolution hypothesis
is the target-shape lookup the builder performs before validating the lists. -/
theorem c5_mismatched_override_lists :
    (∀ (g : Nat) (e e1 : Engine) (mv : Option GoType) (rtn : String) (m : ModelStruct)
       (idx : Nat) (f : StructField) (ms : ModelStruct),
      m.structFields.get? idx = some f →
      isStructTy (stripSlicePtr f.typ) = true →
      tagVal f.tagSettings "MANY2MANY" = "" →
      tagKeys f.tagSettings "FOREIGNKEY" ≠ [] →
      tagKeys f.tagSettings "ASSOCIATIONFOREIGNKEY" ≠ [] →
      (tagKeys f.tagSettings "FOREIGNKEY").length
          ≠ (tagKeys f.tagSettings "ASSOCIATIONFOREIGNKEY").length →
      GetModelStruct g e (some (.ptrT f.typ)) = (e1, .ok ms) →
      (buildRelationSlice (g+2) e mv rtn m idx).2.2
        = .error "invalid foreign keys, should have same length")
    ∧ (∀ (g : Nat) (e e1 : Engine) (mv : Option GoType) (rtn : String) (m : ModelStruct)
       (idx : Nat) (f : StructField) (ms : ModelStruct),
      m.structFields.get? idx = some f →
      tagKeys f.tagSettings "FOREIGNKEY" ≠ [] →
      tagKeys f.tagSettings "ASSOCIATIONFOREIGNKEY" ≠ [] →
      (tagKeys f.tagSettings "FOREIGNKEY").length
          ≠ (tagKeys f.tagSettings "ASSOCIATIONFOREIGNKEY").length →
      GetModelStruct g e (some (.ptrT f.typ)) = (e1, .ok ms) →
      (buildRelationStruct (g+1) e mv rtn m idx).2.2
        = .error "invalid foreign keys, should have same length") := by
  constructor
  · intro g e e1 mv rtn m idx f ms h1 h2 h3 h4 h5 h6 h7
    show (buildRelationSlice (g+1+1) e mv rtn m idx).2.2 = _
    simp only [buildRelationSlice]
    split
    · rename_i heq
      rw [h1] at heq
      simp at heq
    · rename_i field heq
      rw [h1] at heq
      obtain rfl : f = field := Option.some.inj heq
      cases hst : stripSlicePtr f.typ with
      | structT n ta dbta sc gfs =>
        show (if tagVal f.tagSettings "MANY2MANY" = "" then
                hasManyBranch (g+1) e mv rtn m idx f
              else m2mBranch (g+1) e rtn m idx f).2.2 = _
        rw [if_pos h3]
        simp only [hasManyBranch]
        split
        · rename_i e1x msg heq2
          rw [h7] at heq2
          simp at heq2
        · rename_i e1x msx heq2
          rw [h7] at heq2
          rw [if_neg (by simp [h4]), if_neg (by simp [h5]), if_pos h6]
      | sliceT el => rw [hst] at h2; simp [isStructTy] at h2
      | ptrT el => rw [hst] at h2; simp [isStructTy] at h2
      | timeT => rw [hst] at h2; simp [isStructTy] at h2
      | basicT n sc => rw [hst] at h2; simp [isStructTy] at h2
  · intro g e e1 mv rtn m idx f ms h1 h4 h5 h6 h7
    simp only [buildRelationStruct]
    split
    · rename_i heq
      rw [h1] at heq
      simp at heq
    · rename_i field heq
      rw [h1] at heq
      obtain rfl : f = field := Option.some.inj heq
      split
      · rename_i e1x msg heq2
        rw [h7] at heq2
        simp at heq2
      · rename_i e1x msx heq2
        rw [h7] at heq2
        rw [if_neg (by simp [h4]), if_neg (by simp [h5]), if_pos h6]

end Ngorm

namespace Ngorm

/-- Witness for C5 on concrete mismatched override lists, for the slice case
(`UserC.Comments`) and the struct case (`HolderM.P`). -/
theorem c5_mismatched_override_lists_witness :
    (buildRelationSlice 20 (GetModelStruct 20 E0 (some UserCT)).1 (some UserCT) "UserC"
        ((GetModelStruct 20 E0 (some UserCT)).2.toOption.getD fallbackModel) 1).2.2
      = .error "invalid foreign keys, should have same length"
    ∧ (buildRelationStruct 20 (GetModelStruct 20 E0 (some HolderMT)).1 (some HolderMT) "HolderM"
        ((GetModelStruct 20 E0 (some HolderMT)).2.toOption.getD fallbackModel) 1).2.2
      = .error "invalid foreign keys, should have same length" := by
  constructor
  · exact c5_mismatched_override_lists.1 18 (GetModelStruct 20 E0 (some UserCT)).1 _
      (some UserCT) "UserC" ((GetModelStruct 20 E0 (some UserCT)).2.toOption.getD fallbackModel) 1
      ((((GetModelStruct 20 E0 (some UserCT)).2.toOption.getD fallbackModel).structFields.get? 1).getD fallbackField)
      _ (by rfl) (by decide) (by decide) (by decide) (by decide) (by decide) (by rfl)
  · exact c5_mismatched_override_lists.2 19 (GetModelStruct 20 E0 (some HolderMT)).1 _
      (some HolderMT) "HolderM" ((GetModelStruct 20 E0 (some HolderMT)).2.toOption.getD fallbackModel) 1
      ((((GetModelStruct 20 E0 (some HolderMT)).2.toOption.getD fallbackModel).structFields.get? 1).getD fallbackField)
      _ (by rfl) (by decide) (by decide) (by decide) (by rfl)

end Ngorm

namespace Ngorm

theorem embedFlatten_fst (fname : String) (tags : List (String × String)) :
    ∀ (l : List StructField) (base : Nat),
      (embedFlatten fname tags base l).1 = l.map (fun sub =>
        { sub with
          names := fname :: sub.names,
          dbName := tagVal tags "EMBEDDED_PREFIX" ++ sub.dbName }) := by
  intro l
  induction l with
  | nil => intro base; rfl
  | cons a as ih =>
    intro base
    simp only [embedFlatten, List.map_cons, ih]
    congr 1
    cases htg : tagGet tags "EMBEDDED_PREFIX" with
    | some p => simp [tagVal, htg]
    | none => simp [tagVal, htg]

/-- C6: processing an embedded field (annotated `EMBEDDED` or anonymous)
appends, in place of the field itself, exactly the target shape's resolved
fields in their order, each cloned with the embedding field's name prepended
to its name path and the `EMBEDDED_PREFIX` value prepended to its column name
(the empty string when the annotation is absent); the embedding field itself
is never appended, the pending relation builds are untouched, and the loop
continues with the remaining fields. -/
theorem c6_embedded_flattening (g : Nat) (st : LoopSt) (f : GoField) (rest : List GoField)
    (inTy : GoType) (e2 : Engine) (ms : ModelStruct)
    (hexp : f.exported = true)
    (hig : tagHas f.tags "-" = false)
    (hstrip : stripPtrs f.typ = inTy)
    (hsc : isScannerTy inTy = false)
    (htime : inTy ≠ GoType.timeT)
    (hemb : (tagHas f.tags "EMBEDDED" || f.anonymous) = true)
    (hms : GetModelStruct g st.e (some (.ptrT inTy)) = (e2, .ok ms)) :
    fieldLoop (g+1) st (f :: rest) =
      fieldLoop g
        { st with
          e := e2,
          structFields := st.structFields ++ ms.structFields.map (fun sub =>
            { sub with
              names := f.name :: sub.names,
              dbName := tagVal f.tags "EMBEDDED_PREFIX" ++ sub.dbName }),
          primaryIdx := st.primaryIdx
            ++ (embedFlatten f.name f.tags st.structFields.length ms.structFields).2 } rest := by
  simp only [fieldLoop]
  rw [if_neg (by simp [hexp]), if_neg (by simp [hig]), hstrip,
    if_neg (by simp [hsc]), if_neg (by simp [htime]), if_pos (by simp_all), hms]
  show fieldLoop g
      { st with
        e := e2,
        structFields := st.structFields
          ++ (embedFlatten f.name f.tags st.structFields.length ms.structFields).1,
        primaryIdx := st.primaryIdx
          ++ (embedFlatten f.name f.tags st.structFields.length ms.structFields).2 } rest = _
  rw [embedFlatten_fst]

end Ngorm

namespace Ngorm

/-- Witness for C6: flattening the embedded `Address` field of `Emb` (with
`EMBEDDED_PREFIX` `addr_`) into a loop state. -/
theorem c6_embedded_flattening_witness :
    fieldLoop 11 { e := E0, structFields := [], primaryIdx := [], pending := [] }
        [.mk "Address" false true [("EMBEDDED", "EMBEDDED"), ("EMBEDDED_PREFIX", "addr_")] AddressT] =
      fieldLoop 10
        { e := (GetModelStruct 10 E0 (some (.ptrT AddressT))).1,
          structFields := ((GetModelStruct 10 E0 (some (.ptrT AddressT))).2.toOption.getD
              fallbackModel).structFields.map (fun sub =>
            { sub with
              names := "Address" :: sub.names,
              dbName := "addr_" ++ sub.dbName }),
          primaryIdx := (embedFlatten "Address"
            [("EMBEDDED", "EMBEDDED"), ("EMBEDDED_PREFIX", "addr_")] 0
            ((GetModelStruct 10 E0 (some (.ptrT AddressT))).2.toOption.getD
              fallbackModel).structFields).2,
          pending := [] } [] := by
  have h := c6_embedded_flattening 10
    { e := E0, structFields := [], primaryIdx := [], pending := [] }
    (.mk "Address" false true [("EMBEDDED", "EMBEDDED"), ("EMBEDDED_PREFIX", "addr_")] AddressT)
    [] AddressT (GetModelStruct 10 E0 (some (.ptrT AddressT))).1
    ((GetModelStruct 10 E0 (some (.ptrT AddressT))).2.toOption.getD fallbackModel)
    (by decide) (by decide) (by decide) (by decide) (by decide) (by decide) (by rfl)
  exact h.trans (by rfl)

end Ngorm

namespace Ngorm

theorem foldl_fkpatch_sig (js : List Nat) :
    ∀ (m : ModelStruct),
      ((js.foldl (fun mi i =>
          { mi with structFields :=
              updateAt i (fun f => { f with isForeignKey := true }) mi.structFields }) m)).structFields.map pkSig
          = m.structFields.map pkSig
      ∧ ((js.foldl (fun mi i =>
          { mi with structFields :=
              updateAt i (fun f => { f with isForeignKey := true }) mi.structFields }) m)).primaryIdx
          = m.primaryIdx := by
  induction js with
  | nil => intro m; exact ⟨rfl, rfl⟩
  | cons j rest ih =>
    intro m
    simp only [List.foldl_cons]
    refine ⟨(ih _).1.trans ?_, (ih _).2.trans rfl⟩
    apply updateAt_map_proj
    intro x
    rfl

theorem m2mBranch_sig (fuel : Nat) (e : Engine) (rtn : String) (m : ModelStruct)
    (idx : Nat) (fld : StructField) :
    ((m2mBranch fuel e rtn m idx fld).2.1).structFields.map pkSig = m.structFields.map pkSig
    ∧ ((m2mBranch fuel e rtn m idx fld).2.1).primaryIdx = m.primaryIdx := by
  cases fuel with
  | zero => exact ⟨rfl, rfl⟩
  | succ fuel =>
    simp only [m2mBranch]
    split
    · exact ⟨rfl, rfl⟩
    · split
      · exact ⟨rfl, rfl⟩
      · refine ⟨?_, rfl⟩
        apply updateAt_map_proj
        intro x
        rfl

theorem hasManyBranch_sig (fuel : Nat) (e : Engine) (mv : Option GoType) (rtn : String)
    (m : ModelStruct) (idx : Nat) (fld : StructField) :
    ((hasManyBranch fuel e mv rtn m idx fld).2.1).structFields.map pkSig = m.structFields.map pkSig
    ∧ ((hasManyBranch fuel e mv rtn m idx fld).2.1).primaryIdx = m.primaryIdx := by
  cases fuel with
  | zero => exact ⟨rfl, rfl⟩
  | succ fuel =>
    simp only [hasManyBranch]
    split
    · exact ⟨rfl, rfl⟩
    · split
      · exact ⟨rfl, rfl⟩
      · split
        · exact ⟨rfl, rfl⟩
        · split
          · exact ⟨rfl, rfl⟩
          · refine ⟨?_, rfl⟩
            apply updateAt_map_proj
            intro x
            rfl

theorem belongsToBranch_sig (fuel : Nat) (e : Engine) (m : ModelStruct) (idx : Nat)
    (fld : StructField) (toFields : List StructField) (rel0 : Relationship) :
    ((belongsToBranch fuel e m idx fld toFields rel0).2.1).structFields.map pkSig
        = m.structFields.map pkSig
    ∧ ((belongsToBranch fuel e m idx fld toFields rel0).2.1).primaryIdx = m.primaryIdx := by
  cases fuel with
  | zero => exact ⟨rfl, rfl⟩
  | succ fuel =>
    simp only [belongsToBranch]
    split
    · exact ⟨rfl, rfl⟩
    · split
      · exact ⟨rfl, rfl⟩
      · split
        · exact (foldl_fkpatch_sig _ m)
        · rename_i acc heq2 hcond
          have h1 : List.map pkSig (List.foldl (fun mi i =>
                { mi with structFields :=
                    updateAt i (fun f => { f with isForeignKey := true }) mi.structFields })
                m acc.patched).structFields
              = List.map pkSig m.structFields := (foldl_fkpatch_sig _ m).1
          refine ⟨?_, (foldl_fkpatch_sig _ m).2⟩
          refine Eq.trans ?_ h1
          apply updateAt_map_proj
          intro x
          rfl

theorem buildRelationStruct_sig (fuel : Nat) (e : Engine) (mv : Option GoType) (rtn : String)
    (m : ModelStruct) (idx : Nat) :
    ((buildRelationStruct fuel e mv rtn m idx).2.1).structFields.map pkSig
        = m.structFields.map pkSig
    ∧ ((buildRelationStruct fuel e mv rtn m idx).2.1).primaryIdx = m.primaryIdx := by
  cases fuel with
  | zero => exact ⟨rfl, rfl⟩
  | succ fuel =>
    simp only [buildRelationStruct]
    split
    · exact ⟨rfl, rfl⟩
    · split
      · exact ⟨rfl, rfl⟩
      · split
        · exact ⟨rfl, rfl⟩
        · split
          · exact ⟨rfl, rfl⟩
          · split
            · exact belongsToBranch_sig ..
            · refine ⟨?_, rfl⟩
              apply updateAt_map_proj
              intro x
              rfl

theorem buildRelationSlice_sig (fuel : Nat) (e : Engine) (mv : Option GoType) (rtn : String)
    (m : ModelStruct) (idx : Nat) :
    ((buildRelationSlice fuel e mv rtn m idx).2.1).structFields.map pkSig
        = m.structFields.map pkSig
    ∧ ((buildRelationSlice fuel e mv rtn m idx).2.1).primaryIdx = m.primaryIdx := by
  cases fuel with
  | zero => exact ⟨rfl, rfl⟩
  | succ fuel =>
    simp only [buildRelationSlice]
    split
    · exact ⟨rfl, rfl⟩
    · split
      · split
        · exact hasManyBranch_sig ..
        · exact m2mBranch_sig ..
      · refine ⟨?_, rfl⟩
        apply updateAt_map_proj
        intro x
        rfl

theorem runPending_sig : ∀ (fuel : Nat) (e : Engine) (mv : Option GoType) (rtn : String)
    (m : ModelStruct) (pend : List (Nat × Bool)),
    ((runPending fuel e mv rtn m pend).2).structFields.map pkSig = m.structFields.map pkSig
    ∧ ((runPending fuel e mv rtn m pend).2).primaryIdx = m.primaryIdx := by
  intro fuel
  induction fuel with
  | zero =>
    intro e mv rtn m pend
    cases pend with
    | nil => exact ⟨rfl, rfl⟩
    | cons p rest => exact ⟨rfl, rfl⟩
  | succ fuel ih =>
    intro e mv rtn m pend
    cases pend with
    | nil => exact ⟨rfl, rfl⟩
    | cons p rest =>
      obtain ⟨i, b⟩ := p
      simp only [runPending]
      cases b with
      | true =>
        simp only [if_pos rfl]
        refine ⟨(ih ..).1.trans (buildRelationSlice_sig ..).1,
          (ih ..).2.trans (buildRelationSlice_sig ..).2⟩
      | false =>
        simp only [if_neg Bool.false_ne_true]
        refine ⟨(ih ..).1.trans (buildRelationStruct_sig ..).1,
          (ih ..).2.trans (buildRelationStruct_sig ..).2⟩

end Ngorm

namespace Ngorm

/-- Running the deferred relation builds on a description whose primary list
is exactly the promoted field at position `i` leaves that primary list — its
column name and primary flag — intact. -/
theorem runPending_promoted (g : Nat) (E : Engine) (mv : Option GoType) (rtn : String)
    (sf : List StructField) (i : Nat) (fld : StructField) (dtn : String) (mt : GoType)
    (pend : List (Nat × Bool))
    (hget2 : sf.get? i = some fld) :
    ((runPending g E mv rtn
        { modelType := mt, defaultTableName := dtn,
          structFields := updateAt i (fun g => { g with isPrimaryKey := true }) sf,
          primaryIdx := [i] } pend).2.primaryFields.map (fun p => (p.dbName, p.isPrimaryKey)))
      = [(fld.dbName, true)] := by
  obtain ⟨hmap, hidx⟩ := runPending_sig g E mv rtn
    { modelType := mt, defaultTableName := dtn,
      structFields := updateAt i (fun g => { g with isPrimaryKey := true }) sf,
      primaryIdx := [i] } pend
  have hith : ((runPending g E mv rtn
      { modelType := mt, defaultTableName := dtn,
        structFields := updateAt i (fun g => { g with isPrimaryKey := true }) sf,
        primaryIdx := [i] } pend).2.structFields.get? i).map pkSig
      = some (fld.dbName, true) := by
    have h1 := congrArg (fun l => l.get? i) hmap
    simp only [List.get?_map] at h1
    rw [h1, updateAt_get?_self, hget2]
    rfl
  obtain ⟨q, hq1, hq2⟩ := Option.map_eq_some'.mp hith
  simp only [ModelStruct.primaryFields, hidx, List.filterMap, hq1]
  have hq3 : q.dbName = fld.dbName ∧ q.isPrimaryKey = true := by
    have := congrArg Prod.fst hq2
    have h2 := congrArg Prod.snd hq2
    exact ⟨this, h2⟩
  simpa using hq3

/-- C4: (i) with exactly one primary field resolved, `PrimaryKey` returns that
field's column; (ii) when the field loop found no annotated primary key but a
field named/columned `id` exists, that field is promoted — the resolved
description's primary list is exactly the `id` field with its primary flag
set; (iii) with no primary field at all, the lookup fails with the
`NoPrimaryKey` error (the source's `"no field found"`).  The filter hypothesis
of (i) states that the primary-field view agrees with the flags on the field
list, which holds for every resolved description. -/
theorem c4_primary_key_lookup :
    (∀ (fuel j : Nat) (e e' : Engine) (t : GoType) (m : ModelStruct) (c : String),
      GetModelStruct (fuel+1) e (some t) = (e', .ok m) →
      m.structFields.filter (fun f => f.isPrimaryKey) = m.primaryFields →
      m.primaryFields.map (fun f => f.dbName) = [c] →
      PrimaryKey (j+1+1+1+1+1) e' (some t) = (e', .ok c))
    ∧ (∀ (g : Nat) (e : Engine) (t : GoType) (name : String) (tab dbt : Option String)
         (sc : Bool) (gfs : List GoField) (st : LoopSt) (i : Nat) (fld : StructField),
      refTypeKey t = .structT name tab dbt sc gfs →
      structMapGet e.structMap (refTypeKey t) = none →
      fieldLoop g { e := e, structFields := [], primaryIdx := [], pending := [] } gfs
        = (st, none) →
      st.primaryIdx = [] →
      getForeignField "id" st.structFields = some (i, fld) →
      ((GetModelStruct (g+1) e (some t)).2.toOption.map
        (fun mm => mm.primaryFields.map (fun p => (p.dbName, p.isPrimaryKey))))
        = some [(fld.dbName, true)])
    ∧ (∀ (fuel j : Nat) (e e' : Engine) (t : GoType) (m : ModelStruct),
      GetModelStruct (fuel+1) e (some t) = (e', .ok m) →
      m.primaryFields = [] →
      PrimaryKey (j+1+1+1+1+1) e' (some t) = (e', .error "no field found")) := by
  refine ⟨?_, ?_, ?_⟩
  · intro fuel j e e' t m c h hfil hone
    obtain ⟨hs, hc⟩ := GetModelStruct_ok_cached fuel e t e' m h
    obtain ⟨p, hp, hpd⟩ : ∃ p, m.primaryFields = [p] ∧ p.dbName = c := by
      cases hmp : m.primaryFields with
      | nil => rw [hmp] at hone; simp at hone
      | cons p rest =>
        rw [hmp] at hone
        cases rest with
        | nil =>
          simp only [List.map_cons, List.map_nil, List.cons.injEq, and_true] at hone
          exact ⟨p, rfl, hone⟩
        | cons q r => simp at hone
    simp only [PrimaryKey, PrimaryField,
      GetModelStruct_hit (j+1+1) e' t m hs hc,
      PrimaryFields, Fields,
      GetModelStruct_hit j e' t m hs hc,
      hfil, hp]
    simp [hpd]
  · intro g e t name tab dbt sc gfs st i fld hrt hget hfl hpidx hgff
    rw [hrt] at hget
    simp only [GetModelStruct, hrt, hget]
    rw [hfl]
    simp only [hpidx, List.isEmpty_nil, if_true]
    rw [hgff]
    simp only [Except.toOption, Option.map_some']
    refine congrArg some ?_
    exact runPending_promoted g _ (some t) name st.structFields i fld _ _ _
      (getForeignField_get? "id" st.structFields i fld hgff)
  · intro fuel j e e' t m h hmp
    obtain ⟨hs, hc⟩ := GetModelStruct_ok_cached fuel e t e' m h
    simp only [PrimaryKey, PrimaryField,
      GetModelStruct_hit (j+1+1) e' t m hs hc, hmp]
    simp

end Ngorm

namespace Ngorm

/-- Witness for C4: `OnePK` (annotated primary, column `code_col`), `IdOnly`
(no annotation, field columned `id` promoted), `NoPK` (lookup fails). -/
theorem c4_primary_key_lookup_witness :
    PrimaryKey 20 (GetModelStruct 20 E0 (some OnePKT)).1 (some OnePKT)
      = ((GetModelStruct 20 E0 (some OnePKT)).1, .ok "code_col")
    ∧ ((GetModelStruct 20 E0 (some IdOnlyT)).2.toOption.map
        (fun mm => mm.primaryFields.map (fun p => (p.dbName, p.isPrimaryKey))))
        = some [("id", true)]
    ∧ PrimaryKey 20 (GetModelStruct 20 E0 (some NoPKT)).1 (some NoPKT)
      = ((GetModelStruct 20 E0 (some NoPKT)).1, .error "no field found") := by
  refine ⟨?_, ?_, ?_⟩
  · exact c4_primary_key_lookup.1 19 15 E0 (GetModelStruct 20 E0 (some OnePKT)).1 OnePKT
      ((GetModelStruct 20 E0 (some OnePKT)).2.toOption.getD fallbackModel) "code_col"
      (by rfl) (by decide) (by decide)
  · have h := c4_primary_key_lookup.2.1 19 E0 IdOnlyT "IdOnly" none none false
      [.mk "ID" false true [] intTy, .mk "Name" false true [] stringTy]
      (fieldLoop 19 { e := E0, structFields := [], primaryIdx := [], pending := [] }
        [.mk "ID" false true [] intTy, .mk "Name" false true [] stringTy]).1
      ((getForeignField "id" (fieldLoop 19
          { e := E0, structFields := [], primaryIdx := [], pending := [] }
          [.mk "ID" false true [] intTy, .mk "Name" false true [] stringTy]).1.structFields).getD
        (0, fallbackField)).1
      ((getForeignField "id" (fieldLoop 19
          { e := E0, structFields := [], primaryIdx := [], pending := [] }
          [.mk "ID" false true [] intTy, .mk "Name" false true [] stringTy]).1.structFields).getD
        (0, fallbackField)).2
      (by rfl) (by rfl) (by rfl) (by rfl) (by rfl)
    exact h.trans (by rfl)
  · exact c4_primary_key_lookup.2.2 19 15 E0 (GetModelStruct 20 E0 (some NoPKT)).1 NoPKT
      ((GetModelStruct 20 E0 (some NoPKT)).2.toOption.getD fallbackModel)
      (by rfl) (by decide)

end Ngorm

namespace Ngorm

/-- C10: with more than one primary field, `PrimaryField` ignores them and
returns the first field whose name or column is `id` (failing with the
`"field not found"` error when none exists); only with exactly one primary
field is that field itself returned. -/
theorem c10_multi_primary_id_fallback :
    (∀ (fuel j : Nat) (e e' : Engine) (t : GoType) (m : ModelStruct),
      GetModelStruct (fuel+1) e (some t) = (e', .ok m) →
      m.primaryFields.length > 1 →
      PrimaryField (j+1+1+1+1) e' (some t)
        = (match m.structFields.find? (fun f =>
              f.name == "id" || f.dbName == "id" || f.dbName == toDBName "id") with
           | some f => (e', .ok f)
           | none => (e', .error "field not found")))
    ∧ (∀ (fuel j : Nat) (e e' : Engine) (t : GoType) (m : ModelStruct),
      GetModelStruct (fuel+1) e (some t) = (e', .ok m) →
      m.structFields.filter (fun f => f.isPrimaryKey) = m.primaryFields →
      m.primaryFields.length = 1 →
      PrimaryField (j+1+1+1+1) e' (some t)
        = (match m.primaryFields with
           | p :: _ => (e', .ok p)
           | [] => (e', .error "runtime panic: index out of range"))) := by
  constructor
  · intro fuel j e e' t m h hlen
    obtain ⟨hs, hc⟩ := GetModelStruct_ok_cached fuel e t e' m h
    have h0 : m.primaryFields.length > 0 := by omega
    simp only [PrimaryField, GetModelStruct_hit (j+1+1) e' t m hs hc,
      FieldByName, Fields, GetModelStruct_hit j e' t m hs hc,
      if_pos h0, if_pos hlen]
  · intro fuel j e e' t m h hfil hlen
    obtain ⟨hs, hc⟩ := GetModelStruct_ok_cached fuel e t e' m h
    obtain ⟨p, hp⟩ : ∃ p, m.primaryFields = [p] := by
      cases hmp : m.primaryFields with
      | nil => rw [hmp] at hlen; simp at hlen
      | cons p rest =>
        cases rest with
        | nil => exact ⟨p, rfl⟩
        | cons q r => rw [hmp] at hlen; simp at hlen
    simp only [PrimaryField, GetModelStruct_hit (j+1+1) e' t m hs hc,
      PrimaryFields, Fields, GetModelStruct_hit j e' t m hs hc, hfil, hp]
    simp

/-- Witness for C10: `MultiPK` (two primaries, plain `ID` field returned,
not flagged primary), `MultiPKNoId` (two primaries, no `id`: lookup fails),
`OnePK` (single primary returned). -/
theorem c10_multi_primary_id_fallback_witness :
    ((PrimaryField 20 (GetModelStruct 20 E0 (some MultiPKT)).1 (some MultiPKT)).2.toOption.map
        (fun f => (f.name, f.dbName, f.isPrimaryKey))) = some ("ID", "id", false)
    ∧ (PrimaryField 20 (GetModelStruct 20 E0 (some MultiPKNoIdT)).1 (some MultiPKNoIdT)).2
        = .error "field not found"
    ∧ ((PrimaryField 20 (GetModelStruct 20 E0 (some OnePKT)).1 (some OnePKT)).2.toOption.map
        (fun f => f.dbName)) = some "code_col" := by
  refine ⟨?_, ?_, ?_⟩
  · have h := c10_multi_primary_id_fallback.1 19 16 E0
      (GetModelStruct 20 E0 (some MultiPKT)).1 MultiPKT
      ((GetModelStruct 20 E0 (some MultiPKT)).2.toOption.getD fallbackModel)
      (by rfl) (by decide)
    exact (congrArg (fun x => x.2.toOption.map (fun f => (f.name, f.dbName, f.isPrimaryKey))) h).trans
      (by rfl)
  · have h := c10_multi_primary_id_fallback.1 19 16 E0
      (GetModelStruct 20 E0 (some MultiPKNoIdT)).1 MultiPKNoIdT
      ((GetModelStruct 20 E0 (some MultiPKNoIdT)).2.toOption.getD fallbackModel)
      (by rfl) (by decide)
    exact (congrArg (fun x => x.2) h).trans (by rfl)
  · have h := c10_multi_primary_id_fallback.2 19 16 E0
      (GetModelStruct 20 E0 (some OnePKT)).1 OnePKT
      ((GetModelStruct 20 E0 (some OnePKT)).2.toOption.getD fallbackModel)
      (by rfl) (by decide) (by decide)
    exact (congrArg (fun x => x.2.toOption.map (fun f => f.dbName)) h).trans (by rfl)

end Ngorm

namespace Ngorm

theorem foldl_fkpatch_relSig (js : List Nat) :
    ∀ (m : ModelStruct),
      ((js.foldl (fun mi i =>
          { mi with structFields :=
              updateAt i (fun f => { f with isForeignKey := true }) mi.structFields }) m)).structFields.map relSig
          = m.structFields.map relSig := by
  induction js with
  | nil => intro m; rfl
  | cons j rest ih =>
    intro m
    simp only [List.foldl_cons]
    refine (ih _).trans ?_
    apply updateAt_map_proj
    intro x
    rfl

theorem get?_relSig_of_map {l1 l2 : List StructField} (h : l1.map relSig = l2.map relSig)
    (i : Nat) : (l1.get? i).map relSig = (l2.get? i).map relSig := by
  have h1 := congrArg (fun l => l.get? i) h
  simpa [List.get?_map] using h1

end Ngorm

namespace Ngorm

theorem updateAt_getElem?_self (g : StructField → StructField) (i : Nat) (l : List StructField) :
    (updateAt i g l)[i]? = l[i]?.map g := by
  have := updateAt_get?_self g i l
  simpa [List.get?_eq_getElem?] using this

theorem getElem?_relSig_of_map {l1 l2 : List StructField} (h : l1.map relSig = l2.map relSig)
    (i : Nat) : l1[i]?.map relSig = l2[i]?.map relSig := by
  have h1 := congrArg (fun l => l[i]?) h
  simpa [List.getElem?_map] using h1

theorem belongsToBranch_c2 (fuel : Nat) (e : Engine) (m : ModelStruct) (idx : Nat)
    (fld : StructField) (toFields : List StructField) (rel0 : Relationship) (f0 : StructField)
    (h1 : m.structFields.get? idx = some f0) (h2 : f0.relationship = none) :
    (((belongsToBranch fuel e m idx fld toFields rel0).2.1.structFields.get? idx).map
        (fun f => f.isNormal) = some f0.isNormal)
    ∧ (∀ r, ((belongsToBranch fuel e m idx fld toFields rel0).2.1.structFields.get? idx).bind
        (fun f => f.relationship) = some r → r.foreignFieldNames ≠ []) := by
  rw [List.get?_eq_getElem?] at h1
  cases fuel with
  | zero =>
    refine ⟨by simp [belongsToBranch, h1], ?_⟩
    intro r hr
    simp only [belongsToBranch, List.get?_eq_getElem?] at hr
    rw [h1] at hr
    simp [h2] at hr
  | succ fuel =>
    simp only [belongsToBranch]
    split
    · refine ⟨by simp [h1], ?_⟩
      intro r hr
      simp only [List.get?_eq_getElem?] at hr
      rw [h1] at hr
      simp [h2] at hr
    · split
      · refine ⟨by simp [h1], ?_⟩
        intro r hr
        simp only [List.get?_eq_getElem?] at hr
        rw [h1] at hr
        simp [h2] at hr
      · rename_i acc heqPK
        have hm2 := getElem?_relSig_of_map (foldl_fkpatch_relSig acc.patched m) idx
        rw [h1] at hm2
        obtain ⟨q, hq1, hq2⟩ := Option.map_eq_some'.mp hm2
        have hqn : q.isNormal = f0.isNormal := congrArg Prod.fst hq2
        have hqr : q.relationship = f0.relationship := congrArg Prod.snd hq2
        split
        · rename_i hcond
          refine ⟨by simp [hq1, hqn], ?_⟩
          intro r hr
          simp only [List.get?_eq_getElem?] at hr
          simp [hq1, hqr, h2] at hr
        · rename_i hcond
          have hne : acc.ffn ≠ [] := by simpa using hcond
          refine ⟨by simp [updateAt_getElem?_self, hq1, hqn], ?_⟩
          intro r hr
          simp only [List.get?_eq_getElem?] at hr
          simp [updateAt_getElem?_self, hq1] at hr
          rw [← hr]
          simpa using hne

end Ngorm

namespace Ngorm

theorem hasManyBranch_c2 (fuel : Nat) (e : Engine) (mv : Option GoType) (rtn : String)
    (m : ModelStruct) (idx : Nat) (fld : StructField) (f0 : StructField)
    (h1 : m.structFields.get? idx = some f0) (h2 : f0.relationship = none) :
    (((hasManyBranch fuel e mv rtn m idx fld).2.1.structFields.get? idx).map
        (fun f => f.isNormal) = some f0.isNormal)
    ∧ (∀ r, ((hasManyBranch fuel e mv rtn m idx fld).2.1.structFields.get? idx).bind
        (fun f => f.relationship) = some r → r.foreignFieldNames ≠ []) := by
  rw [List.get?_eq_getElem?] at h1
  cases fuel with
  | zero =>
    refine ⟨by simp [hasManyBranch, h1], ?_⟩
    intro r hr
    simp only [hasManyBranch, List.get?_eq_getElem?] at hr
    rw [h1] at hr
    simp [h2] at hr
  | succ fuel =>
    simp only [hasManyBranch]
    split
    · refine ⟨by simp [h1], ?_⟩
      intro r hr
      simp only [List.get?_eq_getElem?] at hr
      rw [h1] at hr
      simp [h2] at hr
    · split
      · refine ⟨by simp [h1], ?_⟩
        intro r hr
        simp only [List.get?_eq_getElem?] at hr
        rw [h1] at hr
        simp [h2] at hr
      · split
        · refine ⟨by simp [h1], ?_⟩
          intro r hr
          simp only [List.get?_eq_getElem?] at hr
          rw [h1] at hr
          simp [h2] at hr
        · split
          · refine ⟨by simp [h1], ?_⟩
            intro r hr
            simp only [List.get?_eq_getElem?] at hr
            rw [h1] at hr
            simp [h2] at hr
          · rename_i hcond
            refine ⟨by simp [updateAt_getElem?_self, h1], ?_⟩
            intro r hr
            simp only [List.get?_eq_getElem?] at hr
            simp [updateAt_getElem?_self, h1] at hr
            rw [← hr]
            simpa using hcond

end Ngorm

namespace Ngorm

theorem m2mBranch_c2 (fuel : Nat) (e : Engine) (rtn : String) (m : ModelStruct)
    (idx : Nat) (fld : StructField) (f0 : StructField)
    (h1 : m.structFields.get? idx = some f0)
    (hok : exceptIsOk (m2mBranch fuel e rtn m idx fld).2.2 = true) :
    ((m2mBranch fuel e rtn m idx fld).2.1.structFields.get? idx).map
        (fun f => f.relationship.map (fun r => r.kind)) = some (some "many_to_many") := by
  rw [List.get?_eq_getElem?] at h1
  cases fuel with
  | zero => simp [m2mBranch, exceptIsOk] at hok
  | succ fuel =>
    simp only [m2mBranch] at hok ⊢
    split at hok
    · simp [exceptIsOk] at hok
    · split at hok
      · simp [exceptIsOk] at hok
      · simp [updateAt_getElem?_self, h1]

end Ngorm

namespace Ngorm

/-- C2 as amended: for a struct-typed field (a) and for a collection field
over a record type without a `MANY2MANY` annotation (b), a relationship is
attached only when at least one foreign-key pair resolved — whenever the
result carries a relationship its foreign list is non-empty — and otherwise
the field is left untouched: no relationship, and in particular its
`isNormal` flag is not set (it keeps its previous value instead of degrading
to a plain scalar).  (c) A collection field over a non-record element type is
the only case the builders mark `isNormal`.  (d) A `MANY2MANY`-annotated
field that builds without error has its relationship attached
unconditionally, pairs or no pairs. -/
theorem c2_relationship_attachment :
    (∀ (fuel : Nat) (e : Engine) (mv : Option GoType) (rtn : String) (m : ModelStruct)
       (idx : Nat) (f0 : StructField),
      m.structFields.get? idx = some f0 →
      f0.relationship = none →
      (((buildRelationStruct fuel e mv rtn m idx).2.1.structFields.get? idx).map
          (fun f => f.isNormal) = some f0.isNormal)
      ∧ (∀ r, ((buildRelationStruct fuel e mv rtn m idx).2.1.structFields.get? idx).bind
          (fun f => f.relationship) = some r → r.foreignFieldNames ≠ []))
    ∧ (∀ (fuel : Nat) (e : Engine) (mv : Option GoType) (rtn : String) (m : ModelStruct)
       (idx : Nat) (f0 : StructField),
      m.structFields.get? idx = some f0 →
      f0.relationship = none →
      isStructTy (stripSlicePtr f0.typ) = true →
      tagVal f0.tagSettings "MANY2MANY" = "" →
      (((buildRelationSlice (fuel+1) e mv rtn m idx).2.1.structFields.get? idx).map
          (fun f => f.isNormal) = some f0.isNormal)
      ∧ (∀ r, ((buildRelationSlice (fuel+1) e mv rtn m idx).2.1.structFields.get? idx).bind
          (fun f => f.relationship) = some r → r.foreignFieldNames ≠ []))
    ∧ (∀ (fuel : Nat) (e : Engine) (mv : Option GoType) (rtn : String) (m : ModelStruct)
       (idx : Nat) (f0 : StructField),
      m.structFields.get? idx = some f0 →
      isStructTy (stripSlicePtr f0.typ) = false →
      ((buildRelationSlice (fuel+1) e mv rtn m idx).2.1.structFields.get? idx)
        = some { f0 with isNormal := true })
    ∧ (∀ (fuel : Nat) (e : Engine) (mv : Option GoType) (rtn : String) (m : ModelStruct)
       (idx : Nat) (f0 : StructField),
      m.structFields.get? idx = some f0 →
      isStructTy (stripSlicePtr f0.typ) = true →
      tagVal f0.tagSettings "MANY2MANY" ≠ "" →
      exceptIsOk (buildRelationSlice (fuel+1) e mv rtn m idx).2.2 = true →
      ((buildRelationSlice (fuel+1) e mv rtn m idx).2.1.structFields.get? idx).map
          (fun f => f.relationship.map (fun r => r.kind)) = some (some "many_to_many")) := by
  refine ⟨?_, ?_, ?_, ?_⟩
  · intro fuel e mv rtn m idx f0 h1 h2
    have h1e : m.structFields[idx]? = some f0 := by
      rw [← List.get?_eq_getElem?]; exact h1
    cases fuel with
    | zero =>
      refine ⟨by simp [buildRelationStruct, h1e], ?_⟩
      intro r hr
      simp only [buildRelationStruct, List.get?_eq_getElem?] at hr
      rw [h1e] at hr
      simp [h2] at hr
    | succ fuel =>
      simp only [buildRelationStruct]
      split
      · rename_i heq
        exact Option.noConfusion (h1.symm.trans heq)
      · rename_i field heq
        obtain rfl : f0 = field := Option.some.inj (h1.symm.trans heq)
        split
        · refine ⟨by simp [h1e], ?_⟩
          intro r hr
          simp only [List.get?_eq_getElem?] at hr
          rw [h1e] at hr
          simp [h2] at hr
        · split
          · refine ⟨by simp [h1e], ?_⟩
            intro r hr
            simp only [List.get?_eq_getElem?] at hr
            rw [h1e] at hr
            simp [h2] at hr
          · split
            · refine ⟨by simp [h1e], ?_⟩
              intro r hr
              simp only [List.get?_eq_getElem?] at hr
              rw [h1e] at hr
              simp [h2] at hr
            · split
              · exact belongsToBranch_c2 _ _ _ _ _ _ _ _ h1 h2
              · rename_i hcond
                refine ⟨by simp [updateAt_getElem?_self, h1e], ?_⟩
                intro r hr
                simp only [List.get?_eq_getElem?] at hr
                simp [updateAt_getElem?_self, h1e] at hr
                rw [← hr]
                simpa using hcond
  · intro fuel e mv rtn m idx f0 h1 h2 hstK hm2m
    simp only [buildRelationSlice]
    split
    · rename_i heq
      exact Option.noConfusion (h1.symm.trans heq)
    · rename_i field heq
      obtain rfl : f0 = field := Option.some.inj (h1.symm.trans heq)
      cases hst : stripSlicePtr f0.typ with
      | structT n ta dbta sc gfs =>
        show (((if tagVal f0.tagSettings "MANY2MANY" = "" then
                  hasManyBranch fuel e mv rtn m idx f0
                else m2mBranch fuel e rtn m idx f0).2.1.structFields.get? idx).map
            (fun f => f.isNormal) = some f0.isNormal)
          ∧ (∀ r, ((if tagVal f0.tagSettings "MANY2MANY" = "" then
                  hasManyBranch fuel e mv rtn m idx f0
                else m2mBranch fuel e rtn m idx f0).2.1.structFields.get? idx).bind
            (fun f => f.relationship) = some r → r.foreignFieldNames ≠ [])
        rw [if_pos hm2m]
        exact hasManyBranch_c2 fuel e mv rtn m idx f0 f0 h1 h2
      | sliceT el => rw [hst] at hstK; simp [isStructTy] at hstK
      | ptrT el => rw [hst] at hstK; simp [isStructTy] at hstK
      | timeT => rw [hst] at hstK; simp [isStructTy] at hstK
      | basicT n sc => rw [hst] at hstK; simp [isStructTy] at hstK
  · intro fuel e mv rtn m idx f0 h1 hstK
    have h1e : m.structFields[idx]? = some f0 := by
      rw [← List.get?_eq_getElem?]; exact h1
    simp only [buildRelationSlice]
    split
    · rename_i heq
      exact Option.noConfusion (h1.symm.trans heq)
    · rename_i field heq
      obtain rfl : f0 = field := Option.some.inj (h1.symm.trans heq)
      cases hst : stripSlicePtr f0.typ with
      | structT n ta dbta sc gfs => rw [hst] at hstK; simp [isStructTy] at hstK
      | sliceT el => simp [updateAt_getElem?_self, h1e]
      | ptrT el => simp [updateAt_getElem?_self, h1e]
      | timeT => simp [updateAt_getElem?_self, h1e]
      | basicT n sc => simp [updateAt_getElem?_self, h1e]
  · intro fuel e mv rtn m idx f0 h1 hstK hm2m hok
    simp only [buildRelationSlice] at hok ⊢
    split at hok
    · rename_i heq
      exact Option.noConfusion (h1.symm.trans heq)
    · rename_i field heq
      obtain rfl : f0 = field := Option.some.inj (h1.symm.trans heq)
      cases hst : stripSlicePtr f0.typ with
      | structT n ta dbta sc gfs =>
        rw [hst] at hok
        have hok2 : exceptIsOk (if tagVal f0.tagSettings "MANY2MANY" = "" then
            hasManyBranch fuel e mv rtn m idx f0
          else m2mBranch fuel e rtn m idx f0).2.2 = true := hok
        rw [if_neg hm2m] at hok2
        show ((if tagVal f0.tagSettings "MANY2MANY" = "" then
                hasManyBranch fuel e mv rtn m idx f0
              else m2mBranch fuel e rtn m idx f0).2.1.structFields.get? idx).map
            (fun f => f.relationship.map (fun r => r.kind)) = some (some "many_to_many")
        rw [if_neg hm2m]
        exact m2mBranch_c2 fuel e rtn m idx f0 f0 h1 hok2
      | sliceT el => rw [hst] at hstK; simp [isStructTy] at hstK
      | ptrT el => rw [hst] at hstK; simp [isStructTy] at hstK
      | timeT => rw [hst] at hstK; simp [isStructTy] at hstK
      | basicT n sc => rw [hst] at hstK; simp [isStructTy] at hstK

end Ngorm

namespace Ngorm

/-- Witness for C2: `OwnerH.Note` (struct case: `has_one` attached with a
non-empty foreign list, `isNormal` untouched), `OwnerH.Notes` (collection
over a record: `has_many`, same), `SI.Nums` (collection over `int`:
marked `isNormal`, no relationship), `M2M.Tags` (`many_to_many` attached). -/
theorem c2_relationship_attachment_witness :
    ((buildRelationStruct 20 E0 none "OwnerH" MOwnerH 1).2.1.structFields.get? 1).map
        (fun f => f.isNormal) = some false
    ∧ ((((buildRelationStruct 20 E0 none "OwnerH" MOwnerH 1).2.1.structFields.get? 1).bind
        (fun f => f.relationship)).getD emptyRel).foreignFieldNames ≠ []
    ∧ ((buildRelationSlice 20 E0 none "OwnerH" MOwnerHM 1).2.1.structFields.get? 1).map
        (fun f => f.isNormal) = some false
    ∧ ((((buildRelationSlice 20 E0 none "OwnerH" MOwnerHM 1).2.1.structFields.get? 1).bind
        (fun f => f.relationship)).getD emptyRel).foreignFieldNames ≠ []
    ∧ ((buildRelationSlice 20 E0 none "SI" MSliceI 0).2.1.structFields.get? 0).map
        (fun f => (f.isNormal, f.relationship)) = some (true, none)
    ∧ ((buildRelationSlice 20 E0 none "M2M" MM2M 1).2.1.structFields.get? 1).map
        (fun f => f.relationship.map (fun r => r.kind)) = some (some "many_to_many") := by
  have ha := c2_relationship_attachment.1 20 E0 none "OwnerH" MOwnerH 1
    (MOwnerH.structFields.getD 1 fallbackField) (by rfl) (by rfl)
  have hb := c2_relationship_attachment.2.1 19 E0 none "OwnerH" MOwnerHM 1
    (MOwnerHM.structFields.getD 1 fallbackField) (by rfl) (by rfl) (by rfl) (by rfl)
  have hc := c2_relationship_attachment.2.2.1 19 E0 none "SI" MSliceI 0
    (MSliceI.structFields.getD 0 fallbackField) (by rfl) (by rfl)
  have hd := c2_relationship_attachment.2.2.2 19 E0 none "M2M" MM2M 1
    (MM2M.structFields.getD 1 fallbackField) (by rfl) (by rfl) (by decide) (by rfl)
  refine ⟨ha.1.trans (by rfl), ha.2 _ (by rfl), hb.1.trans (by rfl), hb.2 _ (by rfl),
    (congrArg (fun o => o.map (fun f => (f.isNormal, f.relationship))) hc).trans (by rfl),
    hd⟩

end Ngorm
